import Mathlib

/-!
Verification of the code-context repository core: incremental change
detection, tree-sitter based splitting, chunk-id assignment, indexing
orchestration, hybrid search, and snapshot persistence.

Shallow embedding notes:
* Python machine-independent ints are `Int`/`Nat`; 64-bit hash arithmetic is
  `Nat` with explicit reduction modulo `2 ^ 64`.
* Python `float` values are modelled as `Rat` (only equality and order
  comparisons on them occur in the embedded code).
* Python `dict`s that the code iterates are modelled as insertion-ordered
  association lists with distinct keys.
* `pathlib.Path` values are modelled by their `as_posix()` string form.
-/

set_option maxRecDepth 20000

namespace CodeContext

/-! ## 64-bit arithmetic helpers (Python/C unsigned semantics via Nat mod 2^64) -/

def m64 : Nat := 2 ^ 64

def mask64 (a : Nat) : Nat := a % m64

def add64 (a b : Nat) : Nat := (a + b) % m64

def sub64 (a b : Nat) : Nat := (a + m64 - b % m64) % m64

def mul64 (a b : Nat) : Nat := (a * b) % m64

def shl64 (a n : Nat) : Nat := (a <<< n) % m64

def rotl64 (a n : Nat) : Nat := ((a <<< n) ||| (a >>> (64 - n))) % m64

def rotl32 (a n : Nat) : Nat := ((a <<< n) ||| (a >>> (32 - n))) % (2 ^ 32)

/-- Byte-swap of a 64-bit value. -/
def swap64 (a : Nat) : Nat :=
  ((a >>> 56) &&& 0xff) ||| (((a >>> 48) &&& 0xff) <<< 8) |||
  (((a >>> 40) &&& 0xff) <<< 16) ||| (((a >>> 32) &&& 0xff) <<< 24) |||
  (((a >>> 24) &&& 0xff) <<< 32) ||| (((a >>> 16) &&& 0xff) <<< 40) |||
  (((a >>> 8) &&& 0xff) <<< 48) ||| ((a &&& 0xff) <<< 56)

/-- Byte-swap of a 32-bit value. -/
def swap32 (a : Nat) : Nat :=
  ((a >>> 24) &&& 0xff) ||| (((a >>> 16) &&& 0xff) <<< 8) |||
  (((a >>> 8) &&& 0xff) <<< 16) ||| ((a &&& 0xff) <<< 24)

/-! ## Byte sequences

A byte string is a `List Nat` with entries below 256 (the code never relies
on entries being in range; out-of-range entries are masked where read). -/

/-- Little-endian 64-bit read at offset `i` (reads past the end yield 0,
matching the C code's contract that reads stay in bounds). -/
def readLE64 (b : List Nat) (i : Nat) : Nat :=
  (b.getD i 0 &&& 0xff) ||| ((b.getD (i+1) 0 &&& 0xff) <<< 8) |||
  ((b.getD (i+2) 0 &&& 0xff) <<< 16) ||| ((b.getD (i+3) 0 &&& 0xff) <<< 24) |||
  ((b.getD (i+4) 0 &&& 0xff) <<< 32) ||| ((b.getD (i+5) 0 &&& 0xff) <<< 40) |||
  ((b.getD (i+6) 0 &&& 0xff) <<< 48) ||| ((b.getD (i+7) 0 &&& 0xff) <<< 56)

/-- Little-endian 32-bit read at offset `i`. -/
def readLE32 (b : List Nat) (i : Nat) : Nat :=
  (b.getD i 0 &&& 0xff) ||| ((b.getD (i+1) 0 &&& 0xff) <<< 8) |||
  ((b.getD (i+2) 0 &&& 0xff) <<< 16) ||| ((b.getD (i+3) 0 &&& 0xff) <<< 24)

/-- UTF-8 encoding of one character (Python `str.encode("utf-8")`, standard
RFC 3629 branching on the code point). -/
def utf8EncodeChar (c : Char) : List Nat :=
  let n := c.toNat
  if n < 0x80 then [n]
  else if n < 0x800 then
    [0xC0 ||| (n >>> 6), 0x80 ||| (n &&& 0x3F)]
  else if n < 0x10000 then
    [0xE0 ||| (n >>> 12), 0x80 ||| ((n >>> 6) &&& 0x3F), 0x80 ||| (n &&& 0x3F)]
  else
    [0xF0 ||| (n >>> 18), 0x80 ||| ((n >>> 12) &&& 0x3F),
     0x80 ||| ((n >>> 6) &&& 0x3F), 0x80 ||| (n &&& 0x3F)]

/-- UTF-8 encoding of a string: model of Python `s.encode("utf-8")`. -/
def utf8Encode (s : String) : List Nat :=
  s.data.flatMap utf8EncodeChar

/-! ## XXH3 (128-bit), seed 0, default secret

Faithful model of the `xxhash` library's `xxh3_128` (xxHash 0.8.x reference
algorithm), which `core/splitters/ids.py` and the snapshot naming use. -/

def XXH_PRIME32_1 : Nat := 0x9E3779B1
def XXH_PRIME32_2 : Nat := 0x85EBCA77
def XXH_PRIME32_3 : Nat := 0xC2B2AE3D
def XXH_PRIME64_1 : Nat := 0x9E3779B185EBCA87
def XXH_PRIME64_2 : Nat := 0xC2B2AE3D27D4EB4F
def XXH_PRIME64_3 : Nat := 0x165667B19E3779F9
def XXH_PRIME64_4 : Nat := 0x85EBCA77C2B2AE63
def XXH_PRIME64_5 : Nat := 0x27D4EB2F165667C5

/-- The 192-byte default secret `XXH3_kSecret` of the reference implementation. -/
def kSecret : List Nat :=
  [0xb8, 0xfe, 0x6c, 0x39, 0x23, 0xa4, 0x4b, 0xbe, 0x7c, 0x01, 0x81, 0x2c,
   0xf7, 0x21, 0xad, 0x1c, 0xde, 0xd4, 0x6d, 0xe9, 0x83, 0x90, 0x97, 0xdb,
   0x72, 0x40, 0xa4, 0xa4, 0xb7, 0xb3, 0x67, 0x1f, 0xcb, 0x79, 0xe6, 0x4e,
   0xcc, 0xc0, 0xe5, 0x78, 0x82, 0x5a, 0xd0, 0x7d, 0xcc, 0xff, 0x72, 0x21,
   0xb8, 0x08, 0x46, 0x74, 0xf7, 0x43, 0x24, 0x8e, 0xe0, 0x35, 0x90, 0xe6,
   0x81, 0x3a, 0x26, 0x4c, 0x3c, 0x28, 0x52, 0xbb, 0x91, 0xc3, 0x00, 0xcb,
   0x88, 0xd0, 0x65, 0x8b, 0x1b, 0x53, 0x2e, 0xa3, 0x71, 0x64, 0x48, 0x97,
   0xa2, 0x0d, 0xf9, 0x4e, 0x38, 0x19, 0xef, 0x46, 0xa9, 0xde, 0xac, 0xd8,
   0xa8, 0xfa, 0x76, 0x3f, 0xe3, 0x9c, 0x34, 0x3f, 0xf9, 0xdc, 0xbb, 0xc7,
   0xc7, 0x0b, 0x4f, 0x1d, 0x8a, 0x51, 0xe0, 0x4b, 0xcd, 0xb4, 0x59, 0x31,
   0xc8, 0x9f, 0x7e, 0xc9, 0xd9, 0x78, 0x73, 0x64, 0xea, 0xc5, 0xac, 0x83,
   0x34, 0xd3, 0xeb, 0xc3, 0xc5, 0x81, 0xa0, 0xff, 0xfa, 0x13, 0x63, 0xeb,
   0x17, 0x0d, 0xdd, 0x51, 0xb7, 0xf0, 0xda, 0x49, 0xd3, 0x16, 0x55, 0x26,
   0x29, 0xd4, 0x68, 0x9e, 0x2b, 0x16, 0xbe, 0x58, 0x7d, 0x47, 0xa1, 0xfc,
   0x8f, 0xf8, 0xb8, 0xd1, 0x7a, 0xd0, 0x31, 0xce, 0x45, 0xcb, 0x3a, 0x8f,
   0x95, 0x16, 0x04, 0x28, 0xaf, 0xd7, 0xfb, 0xca, 0xbb, 0x4b, 0x40, 0x7e]

def secret64 (i : Nat) : Nat := readLE64 kSecret i

def secret32 (i : Nat) : Nat := readLE32 kSecret i

/-- Full 64x64 to 128-bit multiply, folded by xor of halves. -/
def mul128Fold64 (a b : Nat) : Nat :=
  let p := (a % m64) * (b % m64)
  ((p % m64) ^^^ (p / m64)) % m64

def xxh64Avalanche (x : Nat) : Nat :=
  let h := x % m64
  let h := h ^^^ (h >>> 33)
  let h := mul64 h XXH_PRIME64_2
  let h := h ^^^ (h >>> 29)
  let h := mul64 h XXH_PRIME64_3
  h ^^^ (h >>> 32)

def xxh3Avalanche (x : Nat) : Nat :=
  let h := x % m64
  let h := h ^^^ (h >>> 37)
  let h := mul64 h 0x165667919E3779F9
  h ^^^ (h >>> 32)

/-- XXH3_mix16B at input offset `i` and secret offset `sec` (seed 0). -/
def mix16B (inp : List Nat) (i sec : Nat) : Nat :=
  mul128Fold64 (readLE64 inp i ^^^ secret64 sec) (readLE64 inp (i+8) ^^^ secret64 (sec+8))

/-- XXH128_mix32B (seed 0): the running pair is (low64, high64). -/
def mix32B (acc : Nat × Nat) (inp : List Nat) (i1 i2 sec : Nat) : Nat × Nat :=
  let lo := add64 acc.1 (mix16B inp i1 sec)
  let lo := lo ^^^ add64 (readLE64 inp i2) (readLE64 inp (i2+8))
  let hi := add64 acc.2 (mix16B inp i2 (sec+16))
  let hi := hi ^^^ add64 (readLE64 inp i1) (readLE64 inp (i1+8))
  (lo, hi)

/-- Lengths 9..16. -/
def xxh3Len9to16 (inp : List Nat) (n : Nat) : Nat × Nat :=
  let bfl := secret64 32 ^^^ secret64 40
  let bfh := secret64 48 ^^^ secret64 56
  let ilo := readLE64 inp 0
  let ihi := readLE64 inp (n - 8)
  let p := ((ilo ^^^ ihi ^^^ bfl) % m64) * XXH_PRIME64_1
  let mlo := p % m64
  let mhi := p / m64 % m64
  let mlo := add64 mlo (shl64 (n - 1) 54)
  let ihi2 := ihi ^^^ bfh
  let mhi := add64 mhi (add64 ihi2 (mul64 (ihi2 &&& 0xFFFFFFFF) (XXH_PRIME32_2 - 1)))
  let mlo := mlo ^^^ swap64 mhi
  let q := mlo * XXH_PRIME64_2
  let hlo := q % m64
  let hhi := add64 (q / m64) (mul64 mhi XXH_PRIME64_2)
  (xxh3Avalanche hlo, xxh3Avalanche hhi)

/-- Lengths 4..8. -/
def xxh3Len4to8 (inp : List Nat) (n : Nat) : Nat × Nat :=
  let ilo := readLE32 inp 0
  let ihi := readLE32 inp (n - 4)
  let i64 := (ilo + (ihi <<< 32)) % m64
  let bf := secret64 16 ^^^ secret64 24
  let keyed := i64 ^^^ bf
  let p := keyed * ((XXH_PRIME64_1 + (n <<< 2)) % m64)
  let mlo := p % m64
  let mhi := p / m64 % m64
  let mhi := add64 mhi (shl64 mlo 1)
  let mlo := mlo ^^^ (mhi >>> 3)
  let mlo := mlo ^^^ (mlo >>> 35)
  let mlo := mul64 mlo 0x9FB21C651E98DF25
  let mlo := mlo ^^^ (mlo >>> 28)
  (mlo, xxh3Avalanche mhi)

/-- Lengths 1..3. -/
def xxh3Len1to3 (inp : List Nat) (n : Nat) : Nat × Nat :=
  let c1 := inp.getD 0 0 &&& 0xff
  let c2 := inp.getD (n / 2) 0 &&& 0xff
  let c3 := inp.getD (n - 1) 0 &&& 0xff
  let cl := ((c1 <<< 16) ||| (c2 <<< 24) ||| c3 ||| (n <<< 8)) &&& 0xFFFFFFFF
  let ch := rotl32 (swap32 cl) 13
  let bfl := secret32 0 ^^^ secret32 4
  let bfh := secret32 8 ^^^ secret32 12
  (xxh64Avalanche (cl ^^^ bfl), xxh64Avalanche (ch ^^^ bfh))

/-- Length 0. -/
def xxh3Len0 : Nat × Nat :=
  (xxh64Avalanche (secret64 64 ^^^ secret64 72),
   xxh64Avalanche (secret64 80 ^^^ secret64 88))

/-- Lengths 17..128. -/
def xxh3Len17to128 (inp : List Nat) (n : Nat) : Nat × Nat :=
  let acc : Nat × Nat := (mul64 n XXH_PRIME64_1, 0)
  let acc := if n > 96 then mix32B acc inp 48 (n - 64) 96 else acc
  let acc := if n > 64 then mix32B acc inp 32 (n - 48) 64 else acc
  let acc := if n > 32 then mix32B acc inp 16 (n - 32) 32 else acc
  let acc := mix32B acc inp 0 (n - 16) 0
  let hlo := add64 acc.1 acc.2
  let hhi := add64 (add64 (mul64 acc.1 XXH_PRIME64_1) (mul64 acc.2 XXH_PRIME64_4))
                   (mul64 n XXH_PRIME64_2)
  (xxh3Avalanche hlo, sub64 0 (xxh3Avalanche hhi))

/-- Lengths 129..240. -/
def xxh3Len129to240 (inp : List Nat) (n : Nat) : Nat × Nat :=
  let acc : Nat × Nat := (mul64 n XXH_PRIME64_1, 0)
  let acc := (List.range 4).foldl
    (fun a i => mix32B a inp (32*i) (32*i+16) (32*i)) acc
  let acc := (xxh3Avalanche acc.1, xxh3Avalanche acc.2)
  let nbRounds := n / 32
  let acc := (List.range (nbRounds - 4)).foldl
    (fun a k => mix32B a inp (32*(k+4)) (32*(k+4)+16) (3 + 32*k)) acc
  let acc := mix32B acc inp (n - 16) (n - 32) 103
  let hlo := add64 acc.1 acc.2
  let hhi := add64 (add64 (mul64 acc.1 XXH_PRIME64_1) (mul64 acc.2 XXH_PRIME64_4))
                   (mul64 n XXH_PRIME64_2)
  (xxh3Avalanche hlo, sub64 0 (xxh3Avalanche hhi))

/-- One 64-byte stripe accumulation (scalar path of XXH3_accumulate_512). -/
def acc512 (acc : List Nat) (inp : List Nat) (off soff : Nat) : List Nat :=
  (List.range 8).foldl
    (fun a i =>
      let dv := readLE64 inp (off + 8*i)
      let dk := dv ^^^ secret64 (soff + 8*i)
      let a := a.set (i ^^^ 1) (add64 (a.getD (i ^^^ 1) 0) dv)
      a.set i (add64 (a.getD i 0) (mul64 (dk &&& 0xFFFFFFFF) (dk >>> 32))))
    acc

/-- Several consecutive stripes starting at `off`, secret offsets 0, 8, ... -/
def accumulateStripes (acc : List Nat) (inp : List Nat) (off nbStripes : Nat) : List Nat :=
  (List.range nbStripes).foldl (fun a s => acc512 a inp (off + 64*s) (8*s)) acc

/-- XXH3_scrambleAcc with the secret's last 64 bytes. -/
def scrambleAcc (acc : List Nat) : List Nat :=
  (List.range 8).map (fun i =>
    let a := acc.getD i 0
    let a := a ^^^ (a >>> 47)
    let a := a ^^^ secret64 (192 - 64 + 8*i)
    mul64 a XXH_PRIME32_1)

/-- XXH3_mix2Accs and XXH3_mergeAccs. -/
def mergeAccs (acc : List Nat) (soff start : Nat) : Nat :=
  xxh3Avalanche <| (List.range 4).foldl
    (fun r i => add64 r (mul128Fold64 (acc.getD (2*i) 0 ^^^ secret64 (soff + 16*i))
                                      (acc.getD (2*i+1) 0 ^^^ secret64 (soff + 16*i + 8))))
    start

/-- Long-input path (lengths above 240): stripe accumulation over 1024-byte
blocks with scrambling, a final partial block and last stripe, then merge. -/
def xxh3Long (inp : List Nat) (n : Nat) : Nat × Nat :=
  let acc0 : List Nat := [XXH_PRIME32_3, XXH_PRIME64_1, XXH_PRIME64_2, XXH_PRIME64_3,
                          XXH_PRIME64_4, XXH_PRIME32_2, XXH_PRIME64_5, XXH_PRIME32_1]
  let nbStripesPerBlock := (192 - 64) / 8
  let blockLen := 64 * nbStripesPerBlock
  let nbBlocks := (n - 1) / blockLen
  let acc := (List.range nbBlocks).foldl
    (fun a b => scrambleAcc (accumulateStripes a inp (b * blockLen) nbStripesPerBlock))
    acc0
  let nbStripes := ((n - 1) - blockLen * nbBlocks) / 64
  let acc := accumulateStripes acc inp (nbBlocks * blockLen) nbStripes
  let acc := acc512 acc inp (n - 64) (192 - 64 - 7)
  (mergeAccs acc 11 (mul64 n XXH_PRIME64_1),
   mergeAccs acc (192 - 64 - 11) (mul64 n XXH_PRIME64_2 ^^^ (m64 - 1)))

/-- XXH3 128-bit hash with seed 0 and the default secret, as `(low64, high64)`. -/
def xxh3_128 (inp : List Nat) : Nat × Nat :=
  let n := inp.length
  if n ≤ 16 then
    if n > 8 then xxh3Len9to16 inp n
    else if n ≥ 4 then xxh3Len4to8 inp n
    else if n ≥ 1 then xxh3Len1to3 inp n
    else xxh3Len0
  else if n ≤ 128 then xxh3Len17to128 inp n
  else if n ≤ 240 then xxh3Len129to240 inp n
  else xxh3Long inp n

/-- Lowercase hexadecimal digit. -/
def hexDigit (n : Nat) : Char :=
  if n < 10 then Char.ofNat (48 + n) else Char.ofNat (97 + (n - 10))

/-- A 64-bit value as 16 lowercase hex characters, most significant first. -/
def hex16 (x : Nat) : String :=
  String.mk ((List.range 16).map (fun i => hexDigit ((x >>> (4 * (15 - i))) &&& 0xF)))

/-- Model of `xxhash.xxh3_128_hexdigest`: the canonical (big-endian) digest,
high 64 bits first, as 32 lowercase hex characters. -/
def xxh3_128_hexdigest (inp : List Nat) : String :=
  hex16 (xxh3_128 inp).2 ++ hex16 (xxh3_128 inp).1

example : xxh3_128_hexdigest [] = "99aa06d3014798d86001c324468d497f" := by decide

example : xxh3_128_hexdigest ((List.range 3).map (· % 256)) =
    "e3b55f57945a17cf5f4299fc161c9cbb" := by decide

example : xxh3_128_hexdigest ((List.range 8).map (· % 256)) =
    "e1e4432a62217fe4cfd50c61c8bb98c1" := by decide

example : xxh3_128_hexdigest ((List.range 16).map (· % 256)) =
    "72950631827607e2842812cc870dcae2" := by decide

example : xxh3_128_hexdigest ((List.range 100).map (· % 256)) =
    "da95ef16fd9566f329b20ba5f03ec01e" := by decide

example : xxh3_128_hexdigest ((List.range 200).map (· % 256)) =
    "cb0395310643ba0edd97e9af3609d9f5" := by decide

example : xxh3_128_hexdigest ((List.range 241).map (· % 256)) =
    "1da1cb61bcb8a2a102e8cd95421c6d02" := by decide

set_option maxHeartbeats 3200000 in
example : xxh3_128_hexdigest ((List.range 1025).map (· % 256)) =
    "e1e508f110763b4678c86e91ee939852" := by decide

/-! ## Chunk ids (`core/splitters/ids.py`) -/

/-- The `\x1f` component separator `_COMPONENT_SEPARATOR`. -/
def componentSeparator : String := "\x1f"

/-- First index at which the two-character sequence `:/` occurs, if any
(Python `str.find(":/")`). -/
def findDriveSep : List Char → Option Nat
  | ':' :: '/' :: _ => some 0
  | _ :: rest => (findDriveSep rest).map (· + 1)
  | [] => none

/-- Model of `_normalize_file_path`: the path's `as_posix()` form with
everything up to a `:/` drive separator removed, then `lstrip("./")` (which
strips every leading `.` and `/` character) and `lstrip("/")`; the empty
result becomes `"."`. -/
def normalizeFilePath (filePath : String) : String :=
  let n := filePath
  let n :=
    match findDriveSep n.data with
    | some i => String.mk (n.data.drop (i + 2))
    | none => n
  let n := String.mk (((n.data.dropWhile (fun c => c == '.' || c == '/'))).dropWhile
    (fun c => c == '/'))
  if n = "" then "." else n

/-- Model of `make_chunk_id_from_components`: join the four components with
`0x1F` (a `None` parent id becomes the empty string) and take the
`xxh3_128` hex digest of the UTF-8 bytes. -/
def make_chunk_id_from_components (filePath nodeType : String)
    (parentId : Option String) (identifier : String) : String :=
  let payload := String.intercalate componentSeparator
    [normalizeFilePath filePath, nodeType, parentId.getD "", identifier]
  xxh3_128_hexdigest (utf8Encode payload)

example : normalizeFilePath "./src/app.py" = "src/app.py" := by decide

example : normalizeFilePath "C:/Users/x/app.py" = "Users/x/app.py" := by decide

example : normalizeFilePath "/a/b.py" = "a/b.py" := by decide

example : normalizeFilePath "" = "." := by decide

/-- Cross-validation against the real `xxhash` library: the id of
`("src/app.py", "function_definition", None, "main")`. -/
example : make_chunk_id_from_components "src/app.py" "function_definition" none "main" =
    "69247cd632107b98733bae7ce96cc587" := by decide

/-! ## Splittable node types (`core/splitters/utils.py`) -/

/-- `LANGUAGE_EXTENSIONS` from `core/splitters/utils.py`. -/
def LANGUAGE_EXTENSIONS : List (String × String) :=
  [(".ts", "typescript"), (".tsx", "typescript"), (".js", "javascript"),
   (".jsx", "javascript"), (".py", "python"), (".java", "java"),
   (".cpp", "cpp"), (".c", "c"), (".h", "c"), (".hpp", "cpp"),
   (".cs", "csharp"), (".go", "go"), (".rs", "rust"), (".php", "php"),
   (".rb", "ruby"), (".swift", "swift"), (".kt", "kotlin"), (".scala", "scala")]

/-- Extension lookup (Python `dict.get`). -/
def lookupLanguage (suffix : String) : Option String :=
  (LANGUAGE_EXTENSIONS.find? (fun e => e.1 == suffix)).map (·.2)

/-- `SPLITTABLE_NODE_TYPES` from `core/splitters/utils.py`. -/
def SPLITTABLE_NODE_TYPES : List (String × List String) :=
  [("javascript",
    ["function_declaration", "arrow_function", "class_declaration",
     "method_definition", "export_statement"]),
   ("typescript",
    ["function_declaration", "arrow_function", "class_declaration",
     "method_definition", "export_statement", "interface_declaration",
     "type_alias_declaration"]),
   ("python",
    ["function_definition", "class_definition", "decorated_definition",
     "async_function_definition"]),
   ("java",
    ["method_declaration", "class_declaration", "interface_declaration",
     "constructor_declaration"]),
   ("cpp",
    ["function_definition", "class_specifier", "namespace_definition",
     "declaration"]),
   ("go",
    ["function_declaration", "method_declaration", "type_declaration",
     "var_declaration", "const_declaration"]),
   ("rust",
    ["function_item", "impl_item", "struct_item", "enum_item", "trait_item",
     "mod_item"]),
   ("csharp",
    ["method_declaration", "class_declaration", "interface_declaration",
     "struct_declaration", "enum_declaration"]),
   ("scala",
    ["method_declaration", "class_declaration", "interface_declaration",
     "constructor_declaration"])]

/-- The splittable node-type set the source uses for a language. -/
def splittableNodeTypes (lang : String) : List String :=
  ((SPLITTABLE_NODE_TYPES.find? (fun e => e.1 == lang)).map (·.2)).getD []

/-- The closed per-language splittable node-type sets enumerated by the
specification's external-interface tables (section 6). This definition
follows the spec's words and exists only to be compared with
`SPLITTABLE_NODE_TYPES`, which is taken from the source. -/
def specSplittableNodeTypes (lang : String) : List String :=
  if lang = "python" then
    ["function_definition", "class_definition", "decorated_definition",
     "async_function_definition"]
  else if lang = "typescript" then
    ["function_declaration", "class_declaration", "method_definition",
     "interface_declaration", "type_alias_declaration", "arrow_function"]
  else if lang = "rust" then
    ["function_item", "impl_item", "struct_item", "enum_item", "trait_item",
     "mod_item"]
  else if lang = "go" then
    ["function_declaration", "method_declaration", "type_declaration"]
  else if lang = "java" then
    ["method_declaration", "class_declaration", "interface_declaration",
     "constructor_declaration"]
  else if lang = "cpp" then
    ["function_definition", "class_specifier", "namespace_definition"]
  else if lang = "csharp" then
    ["method_declaration", "class_declaration", "interface_declaration",
     "struct_declaration", "enum_declaration"]
  else if lang = "scala" then
    ["method_declaration", "class_declaration", "interface_declaration",
     "constructor_declaration"]
  else []

/-- Two string lists contain the same elements. -/
def sameElements (a b : List String) : Prop :=
  ∀ s : String, s ∈ a ↔ s ∈ b

/-! ## Theorems about chunk ids and node-type tables -/

theorem hex16_length (x : Nat) : (hex16 x).length = 16 := by
  simp [hex16, String.length]

theorem xxh3_hexdigest_length (inp : List Nat) : (xxh3_128_hexdigest inp).length = 32 := by
  simp [xxh3_128_hexdigest, String.length_append, hex16_length]

theorem hex16_chars (x : Nat) :
    ∀ c ∈ (hex16 x).data, (48 ≤ c.toNat ∧ c.toNat ≤ 57) ∨ (97 ≤ c.toNat ∧ c.toNat ≤ 102) := by
  intro c hc
  simp only [hex16, String.mk, List.mem_map, List.mem_range] at hc
  obtain ⟨i, _, rfl⟩ := hc
  have hlt : ((x >>> (4 * (15 - i))) &&& 0xF) < 16 :=
    Nat.lt_of_le_of_lt Nat.and_le_right (by norm_num)
  have hall : ∀ n < 16,
      (48 ≤ (hexDigit n).toNat ∧ (hexDigit n).toNat ≤ 57) ∨
      (97 ≤ (hexDigit n).toNat ∧ (hexDigit n).toNat ≤ 102) := by decide
  exact hall _ hlt

/-- C9: the chunk id is the lowercase 32-hex-character `xxh3_128` digest of
the UTF-8 bytes of `normalized_path`, `0x1F`, `node_type`, `0x1F`,
`parent_id` or the empty string, `0x1F`, `identifier`; being a pure function
of the four components, equal inputs give equal ids. -/
theorem chunk_id_formula (filePath nodeType : String) (parentId : Option String)
    (identifier : String) :
    make_chunk_id_from_components filePath nodeType parentId identifier =
      xxh3_128_hexdigest (utf8Encode
        (normalizeFilePath filePath ++ componentSeparator ++ nodeType ++
         componentSeparator ++ parentId.getD "" ++ componentSeparator ++ identifier)) ∧
    (make_chunk_id_from_components filePath nodeType parentId identifier).length = 32 ∧
    ∀ c ∈ (make_chunk_id_from_components filePath nodeType parentId identifier).data,
      (48 ≤ c.toNat ∧ c.toNat ≤ 57) ∨ (97 ≤ c.toNat ∧ c.toNat ≤ 102) := by
  refine ⟨rfl, xxh3_hexdigest_length _, ?_⟩
  intro c hc
  have hdata : (make_chunk_id_from_components filePath nodeType parentId identifier).data =
      (hex16 (xxh3_128 (utf8Encode (String.intercalate componentSeparator
        [normalizeFilePath filePath, nodeType, parentId.getD "", identifier]))).2).data ++
      (hex16 (xxh3_128 (utf8Encode (String.intercalate componentSeparator
        [normalizeFilePath filePath, nodeType, parentId.getD "", identifier]))).1).data := rfl
  rw [hdata] at hc
  rcases List.mem_append.mp hc with h | h
  · exact hex16_chars _ c h
  · exact hex16_chars _ c h

/-- C9 witness: the theorem applied at a concrete chunk, the id matching the
real library's digest. -/
theorem chunk_id_formula_witness :
    make_chunk_id_from_components "src/app.py" "function_definition" none "main" =
      xxh3_128_hexdigest (utf8Encode
        (normalizeFilePath "src/app.py" ++ componentSeparator ++ "function_definition" ++
         componentSeparator ++ (Option.getD none "") ++ componentSeparator ++ "main")) ∧
    make_chunk_id_from_components "src/app.py" "function_definition" none "main" =
      "69247cd632107b98733bae7ce96cc587" :=
  ⟨(chunk_id_formula "src/app.py" "function_definition" none "main").1, by decide⟩

/-- C6 counterexample: the Go splittable set in the source contains
`var_declaration`, which the spec's closed Go set does not, so the two sets
are not equal. -/
theorem splittable_node_types_counterexample :
    "var_declaration" ∈ splittableNodeTypes "go" ∧
    "var_declaration" ∉ specSplittableNodeTypes "go" ∧
    ¬ sameElements (splittableNodeTypes "go") (specSplittableNodeTypes "go") := by
  refine ⟨by decide, by decide, fun h => ?_⟩
  exact absurd ((h "var_declaration").mp (by decide)) (by decide)

/-- C6 amended: every node type the spec's tables list is splittable in the
source, and the python, java, rust, csharp and scala sets match exactly; but
the source's go set additionally holds var_declaration and const_declaration,
its cpp set additionally holds declaration, and its typescript set
additionally holds export_statement. -/
theorem splittable_node_types_amended :
    (∀ lang ∈ ["python", "typescript", "rust", "go", "java", "cpp", "csharp", "scala"],
       ∀ s ∈ specSplittableNodeTypes lang, s ∈ splittableNodeTypes lang) ∧
    splittableNodeTypes "python" = specSplittableNodeTypes "python" ∧
    splittableNodeTypes "java" = specSplittableNodeTypes "java" ∧
    splittableNodeTypes "rust" = specSplittableNodeTypes "rust" ∧
    splittableNodeTypes "csharp" = specSplittableNodeTypes "csharp" ∧
    splittableNodeTypes "scala" = specSplittableNodeTypes "scala" ∧
    (splittableNodeTypes "go").filter
      (fun s => !(specSplittableNodeTypes "go").contains s)
      = ["var_declaration", "const_declaration"] ∧
    (splittableNodeTypes "cpp").filter
      (fun s => !(specSplittableNodeTypes "cpp").contains s)
      = ["declaration"] ∧
    (splittableNodeTypes "typescript").filter
      (fun s => !(specSplittableNodeTypes "typescript").contains s)
      = ["export_statement"] := by decide

/-! ## Tree-sitter splitter (`core/splitters/tree_sitter.py`)

`CodeChunk` is modelled with the fields the splitter constructs and copies
(`content`, `start_line`, `end_line`, `language`, `file_path`, `doc`); the id
and graph-node fields of `core/splitters/types.py` are assigned outside the
functions verified here. Tree-sitter parsing itself is an external library;
its outcome enters `split` as an oracle value. -/

structure CodeChunk where
  content : String
  start_line : Int
  end_line : Int
  language : String
  file_path : String
  doc : Option String := none
deriving DecidableEq

structure SplitterConfig where
  chunk_size : Int := 2500
  chunk_overlap : Int := 300
deriving DecidableEq

/-- Python `str.split(sep)` for a one-character separator, over char lists. -/
def splitCharList (sep : Char) : List Char → List (List Char)
  | [] => [[]]
  | c :: rest =>
    let r := splitCharList sep rest
    if c = sep then [] :: r
    else
      match r with
      | h :: t => (c :: h) :: t
      | [] => [[c]]

/-- Python `s.split("\n")`. -/
def pySplitNl (s : String) : List String :=
  (splitCharList '\n' s.data).map String.mk

/-- Python whitespace as `str.strip()` sees it. -/
def pyIsSpace (c : Char) : Bool :=
  c == ' ' || c == '\t' || c == '\n' || c == '\r' || c == '\x0b' || c == '\x0c'

/-- Python `str.strip()`. -/
def pyStrip (s : String) : String :=
  String.mk (((s.data.dropWhile pyIsSpace).reverse.dropWhile pyIsSpace).reverse)

/-- Python `text[-n:]` for `n ≥ 1`: the last `n` characters. -/
def pyLastChars (n : Nat) (s : String) : String :=
  String.mk ((s.data.reverse.take n).reverse)

/-- Python `len(text.splitlines()) if text else 0`, with the newline as line
separator (the embedded strings use only `\n` line breaks). -/
def pyLineCount (s : String) : Nat :=
  if s = "" then 0
  else s.data.count '\n' + (if s.data.getLast? = some '\n' then 0 else 1)

/-- CPython `PurePath.suffix` of the path's last component: from the last dot
when it is neither first nor last in the name. -/
def lastDotIdx (l : List Char) : Option Nat :=
  (l.reverse.findIdx? (· == '.')).map (fun k => l.length - 1 - k)

def pathSuffix (filePath : String) : String :=
  let name := String.mk ((splitCharList '/' filePath.data).getLastD [])
  match lastDotIdx name.data with
  | some i => if 0 < i ∧ i < name.length - 1 then String.mk (name.data.drop i) else ""
  | none => ""

/-- The extension key `split` looks up: `file_path.suffix.lower().strip()`. -/
def suffixKey (filePath : String) : String :=
  pyStrip (String.mk ((pathSuffix filePath).data.map Char.toLower))

/-- Loop of `_fallback_text_split` over the enumerated lines: `i` is the
0-based index of the next line, `cur` the running buffer, `curStart` its
1-based start line. -/
def fallbackTextSplitGo (chunkSize : Int) (lang fp : String) (total : Nat) :
    List String → Nat → String → Int → List CodeChunk
  | [], _, cur, curStart =>
    if pyStrip cur ≠ "" then
      [⟨pyStrip cur, curStart, (total : Int), lang, fp, none⟩]
    else []
  | line :: rest, i, cur, curStart =>
    let lwn := line ++ (if i < total - 1 then "\n" else "")
    if ((cur.length : Int) + (lwn.length : Int) > chunkSize) ∧ pyStrip cur ≠ "" then
      ⟨pyStrip cur, curStart, (i : Int), lang, fp, none⟩ ::
        fallbackTextSplitGo chunkSize lang fp total rest (i + 1) lwn ((i : Int) + 1)
    else
      fallbackTextSplitGo chunkSize lang fp total rest (i + 1) (cur ++ lwn) curStart

/-- Model of `TreeSitterSplitter._fallback_text_split`: resolves the language
tag again and returns no chunks when the extension is unsupported; otherwise
splits on lines, bounded by `chunk_size`. -/
def fallbackTextSplit (cfg : SplitterConfig) (code : String) (filePath : String) :
    List CodeChunk :=
  match lookupLanguage (suffixKey filePath) with
  | none => []
  | some lang =>
    let lines := pySplitNl code
    fallbackTextSplitGo cfg.chunk_size lang filePath lines.length lines 0 "" 1

/-- Loop of `_split_large_chunk`: like the fallback loop but lines are offset
by the parent chunk's `start_line` and the buffer's line count is tracked. -/
def splitLargeChunkGo (chunkSize : Int) (tmpl : CodeChunk) (total : Nat) :
    List String → Nat → String → Int → Nat → List CodeChunk
  | [], _, cur, curStart, curCount =>
    if pyStrip cur ≠ "" then
      [{ tmpl with content := pyStrip cur, start_line := curStart,
                   end_line := curStart + (curCount : Int) - 1 }]
    else []
  | line :: rest, i, cur, curStart, curCount =>
    let lwn := line ++ (if i < total - 1 then "\n" else "")
    if ((cur.length : Int) + (lwn.length : Int) > chunkSize) ∧ pyStrip cur ≠ "" then
      { tmpl with content := pyStrip cur, start_line := curStart,
                  end_line := curStart + (curCount : Int) - 1 } ::
        splitLargeChunkGo chunkSize tmpl total rest (i + 1) lwn (tmpl.start_line + (i : Int)) 1
    else
      splitLargeChunkGo chunkSize tmpl total rest (i + 1) (cur ++ lwn) curStart (curCount + 1)

/-- Model of `TreeSitterSplitter._split_large_chunk`. -/
def splitLargeChunk (cfg : SplitterConfig) (chunk : CodeChunk) : List CodeChunk :=
  let lines := pySplitNl chunk.content
  splitLargeChunkGo cfg.chunk_size chunk lines.length lines 0 "" chunk.start_line 0

/-- Model of `TreeSitterSplitter._add_overlap`: identity for a single chunk or
non-positive overlap; otherwise each chunk after the first gets the previous
original chunk's last `chunk_overlap` characters prepended with a newline and
its `start_line` lowered by that overlap's line count, floored at 1. -/
def addOverlap (cfg : SplitterConfig) (chunks : List CodeChunk) : List CodeChunk :=
  if chunks.length ≤ 1 ∨ cfg.chunk_overlap ≤ 0 then chunks
  else
    chunks.enum.map (fun p =>
      let i := p.1
      let chunk := p.2
      if i = 0 then chunk
      else
        match chunks.get? (i - 1) with
        | none => chunk
        | some prev =>
          let overlapText := pyLastChars cfg.chunk_overlap.toNat prev.content
          let newContent :=
            if overlapText ≠ "" then overlapText ++ "\n" ++ chunk.content
            else chunk.content
          { chunk with content := newContent,
                       start_line := max 1 (chunk.start_line - (pyLineCount overlapText : Int)) })

/-- Model of `TreeSitterSplitter._refine_chunks`. -/
def refineChunks (cfg : SplitterConfig) (chunks : List CodeChunk) : List CodeChunk :=
  chunks.flatMap (fun chunk =>
    if (chunk.content.length : Int) ≤ cfg.chunk_size then [chunk]
    else addOverlap cfg (splitLargeChunk cfg chunk))

/-- Outcome of the tree-sitter parse attempt in `split`: the parser may be
unavailable, parsing may fail (including a grammar without splittable node
types, which raises and is caught), or it yields the chunks extracted from
the AST walk. -/
inductive ParserOutcome where
  | unavailable
  | parseFailed
  | parsed (chunks : List CodeChunk)
deriving DecidableEq

/-- Model of `TreeSitterSplitter.split`: dispatch on the file extension; an
unsupported extension or a failed parse falls back to the text splitter,
otherwise the extracted chunks are refined. -/
def TreeSitterSplitter.split (cfg : SplitterConfig) (outcome : ParserOutcome)
    (code : String) (filePath : String) : List CodeChunk :=
  match lookupLanguage (suffixKey filePath) with
  | none => fallbackTextSplit cfg code filePath
  | some _ =>
    match outcome with
    | .unavailable => fallbackTextSplit cfg code filePath
    | .parseFailed => fallbackTextSplit cfg code filePath
    | .parsed chunks => refineChunks cfg chunks

example : suffixKey "a.xyz" = ".xyz" := by decide

example : suffixKey "src/App.PY" = ".py" := by decide

example : TreeSitterSplitter.split {} .unavailable "hello" "a.py" =
    [⟨"hello", 1, 1, "python", "a.py", none⟩] := by decide

example : fallbackTextSplit { chunk_size := 6, chunk_overlap := 0 } "ab\ncd\nef" "a.py" =
    [⟨"ab\ncd", 1, 2, "python", "a.py", none⟩, ⟨"ef", 3, 3, "python", "a.py", none⟩] := by
  decide

/-! ## Theorems: fallback for unsupported extensions (C4) and overlap (C5) -/

/-- C4 counterexample: `split` on the non-empty text `"hello"` with the
unsupported extension `.xyz` returns the empty chunk list, not a non-empty
fallback split. -/
theorem split_unsupported_counterexample :
    TreeSitterSplitter.split {} .unavailable "hello" "a.xyz" = [] ∧ "hello" ≠ "" := by
  decide

/-- C4 amended: for a file whose extension is not in the supported set,
`split` falls back to `_fallback_text_split`, which finds no language tag for
the extension and returns the empty list, so `split` yields no chunks. -/
theorem split_unsupported_amended (cfg : SplitterConfig) (outcome : ParserOutcome)
    (code filePath : String) (h : lookupLanguage (suffixKey filePath) = none) :
    TreeSitterSplitter.split cfg outcome code filePath = [] ∧
    TreeSitterSplitter.split cfg outcome code filePath =
      fallbackTextSplit cfg code filePath := by
  unfold TreeSitterSplitter.split fallbackTextSplit
  rw [h]
  exact ⟨rfl, rfl⟩

/-- C4 witness: the amended theorem at the concrete input. -/
theorem split_unsupported_amended_witness :
    TreeSitterSplitter.split {} .unavailable "hello" "a.xyz" = [] ∧
    TreeSitterSplitter.split {} .unavailable "hello" "a.xyz" =
      fallbackTextSplit {} "hello" "a.xyz" :=
  split_unsupported_amended {} .unavailable "hello" "a.xyz" (by decide)

/-- Every sub-chunk `_split_large_chunk` emits has non-empty (stripped)
content: chunks are flushed only when the buffer strips to something. -/
theorem splitLargeChunkGo_content_ne (chunkSize : Int) (tmpl : CodeChunk) (total : Nat) :
    ∀ (lines : List String) (i : Nat) (cur : String) (curStart : Int) (curCount : Nat),
      ∀ c ∈ splitLargeChunkGo chunkSize tmpl total lines i cur curStart curCount,
        c.content ≠ "" := by
  intro lines
  induction lines with
  | nil =>
    intro i cur curStart curCount c hc
    by_cases h : pyStrip cur ≠ ""
    · rw [splitLargeChunkGo, if_pos h] at hc
      rcases List.mem_singleton.mp hc with rfl
      exact h
    · rw [splitLargeChunkGo, if_neg h] at hc
      exact absurd hc (List.not_mem_nil c)
  | cons line rest ih =>
    intro i cur curStart curCount c hc
    rw [splitLargeChunkGo] at hc
    by_cases h : ((cur.length : Int) +
        ((line ++ (if i < total - 1 then "\n" else "")).length : Int) > chunkSize) ∧
        pyStrip cur ≠ ""
    · rw [if_pos h] at hc
      rcases List.mem_cons.mp hc with rfl | hmem
      · exact h.2
      · exact ih _ _ _ _ c hmem
    · rw [if_neg h] at hc
      exact ih _ _ _ _ c hc

theorem splitLargeChunk_content_ne (cfg : SplitterConfig) (chunk : CodeChunk) :
    ∀ c ∈ splitLargeChunk cfg chunk, c.content ≠ "" := by
  intro c hc
  exact splitLargeChunkGo_content_ne cfg.chunk_size chunk _ _ _ _ _ _ c hc

/-- The last `n` characters of a non-empty string form a non-empty string
when `n` is positive. -/
theorem pyLastChars_ne_empty (n : Nat) (s : String) (hn : 0 < n) (hs : s ≠ "") :
    pyLastChars n s ≠ "" := by
  unfold pyLastChars
  intro h
  have hdata : ((s.data.reverse.take n).reverse) = ([] : List Char) :=
    congrArg String.data h
  have htake : s.data.reverse.take n = [] := by
    have := congrArg List.reverse hdata
    simpa using this
  rcases List.take_eq_nil_iff.mp htake with h1 | h1
  · omega
  · apply hs
    have : s.data = [] := by simpa using congrArg List.reverse h1
    cases s with
    | mk data => simp_all
  
/-- Indexing an enumerated map. -/
theorem getElem_enum_map {α β : Type} (l : List α) (g : Nat × α → β) (i : Nat) :
    (l.enum.map g)[i]? = (l[i]?).map (fun a => g (i, a)) := by
  simp only [List.getElem?_map, List.getElem?_enum]
  cases l[i]? <;> rfl

/-- C5: `_add_overlap` is the identity for a single sub-chunk or non-positive
overlap; otherwise it keeps the list length, leaves the first sub-chunk
unchanged, and gives each later sub-chunk the previous original sub-chunk's
last `chunk_overlap` characters, a newline, then its own content, with
`start_line` lowered by the overlap's line count and floored at 1. -/
theorem add_overlap_spec (cfg : SplitterConfig) (chunk : CodeChunk) :
    (∀ chunks : List CodeChunk, chunks.length ≤ 1 ∨ cfg.chunk_overlap ≤ 0 →
        addOverlap cfg chunks = chunks) ∧
    (addOverlap cfg (splitLargeChunk cfg chunk)).length =
      (splitLargeChunk cfg chunk).length ∧
    (addOverlap cfg (splitLargeChunk cfg chunk))[0]? = (splitLargeChunk cfg chunk)[0]? ∧
    (∀ i prev cur, 0 < i → 0 < cfg.chunk_overlap →
      (splitLargeChunk cfg chunk)[i-1]? = some prev →
      (splitLargeChunk cfg chunk)[i]? = some cur →
      (addOverlap cfg (splitLargeChunk cfg chunk))[i]? = some
        { cur with
          content := pyLastChars cfg.chunk_overlap.toNat prev.content ++ "\n" ++ cur.content,
          start_line := max 1 (cur.start_line -
            (pyLineCount (pyLastChars cfg.chunk_overlap.toNat prev.content) : Int)) }) := by
  constructor
  · intro chunks h
    simp [addOverlap, h]
  refine ⟨?_, ?_, ?_⟩
  · unfold addOverlap
    split
    · rfl
    · simp
  · unfold addOverlap
    split
    · rfl
    · rw [getElem_enum_map]
      cases (splitLargeChunk cfg chunk)[0]? <;> simp
  · intro i prev cur hi hov hprev hcur
    have hlen : 2 ≤ (splitLargeChunk cfg chunk).length := by
      by_contra hlen
      rw [List.getElem?_eq_none (by omega)] at hcur
      cases hcur
    have hcond : ¬((splitLargeChunk cfg chunk).length ≤ 1 ∨ cfg.chunk_overlap ≤ 0) := by
      push_neg
      exact ⟨by omega, hov⟩
    unfold addOverlap
    rw [if_neg hcond, getElem_enum_map, hcur]
    have hget : (splitLargeChunk cfg chunk).get? (i - 1) = some prev := by
      simpa [List.get?_eq_getElem?] using hprev
    have hne : pyLastChars cfg.chunk_overlap.toNat prev.content ≠ "" :=
      pyLastChars_ne_empty _ _ (by omega)
        (splitLargeChunk_content_ne cfg chunk prev (List.get?_mem hget))
    have hi0 : ¬ i = 0 := by omega
    simp [hget, hne, hi0, hprev]

/-! ## Change detector (`core/sync/comparator.py`, `core/sync/types.py`)

`compare_snapshot_to_current` reads content hashes of files under the root;
that filesystem access is modelled by the oracle `hashOf`, giving the current
content hash of a path (only paths present in `currentMeta` are hashed).
The snapshot and metadata dicts are insertion-ordered association lists.
Where CPython iterates a `set` (whose order is unspecified), the embedding
iterates the corresponding sorted list; no verified statement depends on
that order. -/

structure FileRecord where
  size : Int
  mtime : Rat
  inode : Option Int
  hash : String
deriving DecidableEq

/-- The `(size, mtime, inode)` metadata tuple produced by `scan_metadata`. -/
structure FileMeta where
  size : Int
  mtime : Rat
  inode : Option Int
deriving DecidableEq

structure DetectedChanges where
  added : List String := []
  modified : List String := []
  removed : List String := []
deriving DecidableEq

def DetectedChanges.num_changes (c : DetectedChanges) : Nat :=
  c.added.length + c.modified.length + c.removed.length

def DetectedChanges.to_add (c : DetectedChanges) : List String :=
  c.added ++ c.modified

def DetectedChanges.to_remove (c : DetectedChanges) : List String :=
  c.modified ++ c.removed

/-- Insertion sort on strings: model of Python `sorted` for string lists. -/
def insertStr (x : String) : List String → List String
  | [] => [x]
  | y :: ys => if x ≤ y then x :: y :: ys else y :: insertStr x ys

def sortStrings (l : List String) : List String := l.foldr insertStr []

/-- Python `dict.fromkeys` de-duplication, keeping first occurrences. -/
def dedupKeepFirst (l : List String) : List String :=
  l.foldl (fun acc p => if p ∈ acc then acc else acc ++ [p]) []

/-- Dictionary lookup on an association list (keys are unique, so the first
match is the only one). -/
def lookupAssoc {α : Type} (l : List (String × α)) (k : String) : Option α :=
  (l.find? (fun e => e.1 == k)).map (·.2)

/-- The `old_inode_map` lookup: built by insertion over `old_files`, so the
last record with the inode wins; records with a null inode are skipped. -/
def oldInodeLookup (oldFiles : List (String × FileRecord)) (i : Int) : Option String :=
  (oldFiles.reverse.find? (fun e => e.2.inode == some i)).map (·.1)

/-- The `removed_hashes` lookup over the surviving removed set: last entry
with the hash wins. -/
def removedHashLookup (oldFiles : List (String × FileRecord)) (removedSet : List String)
    (h : String) : Option String :=
  removedSet.reverse.find? (fun p =>
    match lookupAssoc oldFiles p with
    | some r => r.hash == h
    | none => false)

/-- Accumulator of the two rename-detection passes: paths to drop from
`added` and from `removed`, and extra entries appended to `modified`. -/
structure RenamePhase where
  remAdd : List String := []
  remRem : List String := []
  modExtra : List String := []

/-- One step of inode-based rename detection (step 1 of the comparator). -/
def phase1Step (oldFiles : List (String × FileRecord))
    (currentMeta : List (String × FileMeta)) (hashOf : String → String)
    (acc : RenamePhase) (newP : String) : RenamePhase :=
  match lookupAssoc currentMeta newP with
  | none => acc
  | some m =>
    match m.inode with
    | none => acc
    | some i =>
      match oldInodeLookup oldFiles i with
      | none => acc
      | some oldP =>
        if oldP = "" then acc
        else
          match lookupAssoc oldFiles oldP with
          | none => acc
          | some oldRec =>
            if hashOf newP = oldRec.hash then
              { acc with remAdd := acc.remAdd ++ [newP], remRem := acc.remRem ++ [oldP] }
            else
              { acc with modExtra := acc.modExtra ++ [newP] }

def phase1 (oldFiles : List (String × FileRecord)) (currentMeta : List (String × FileMeta))
    (hashOf : String → String) (added : List String) : RenamePhase :=
  added.foldl (phase1Step oldFiles currentMeta hashOf) {}

/-- One step of hash-based rename detection (step 2 of the comparator). -/
def phase2Step (oldFiles : List (String × FileRecord)) (removedSet : List String)
    (hashOf : String → String) (acc : RenamePhase) (newP : String) : RenamePhase :=
  match removedHashLookup oldFiles removedSet (hashOf newP) with
  | none => acc
  | some oldP =>
    if oldP = "" then acc
    else { acc with remAdd := acc.remAdd ++ [newP], remRem := acc.remRem ++ [oldP] }

def phase2 (oldFiles : List (String × FileRecord)) (removedSet : List String)
    (hashOf : String → String) (added1 : List String) : RenamePhase :=
  added1.foldl (phase2Step oldFiles removedSet hashOf) {}

/-- Whether a common path's cheap metadata matches its snapshot record. -/
def metaUnchanged (r : FileRecord) (m : FileMeta) : Bool :=
  r.size == m.size && r.mtime == m.mtime && r.inode == m.inode

/-- The initial `added` list: new paths absent from the snapshot, sorted. -/
def comparatorAdded0 (oldFiles : List (String × FileRecord))
    (currentMeta : List (String × FileMeta)) : List String :=
  sortStrings ((currentMeta.map (·.1)).filter
    (fun p => !((oldFiles.map (·.1)).contains p)))

/-- The initial `removed` list: snapshot paths absent from the listing, sorted. -/
def comparatorRemoved0 (oldFiles : List (String × FileRecord))
    (currentMeta : List (String × FileMeta)) : List String :=
  sortStrings ((oldFiles.map (·.1)).filter
    (fun p => !((currentMeta.map (·.1)).contains p)))

/-- The sorted `common` list. -/
def comparatorCommon (oldFiles : List (String × FileRecord))
    (currentMeta : List (String × FileMeta)) : List String :=
  sortStrings ((currentMeta.map (·.1)).filter
    (fun p => (oldFiles.map (·.1)).contains p))

/-- The common paths appended to `modified`: metadata changed and the current
content hash differs from the snapshot hash. -/
def comparatorModifiedCommon (oldFiles : List (String × FileRecord))
    (currentMeta : List (String × FileMeta)) (hashOf : String → String) :
    List String :=
  (comparatorCommon oldFiles currentMeta).filter (fun p =>
    match lookupAssoc currentMeta p, lookupAssoc oldFiles p with
    | some m, some r => !metaUnchanged r m && !(hashOf p == r.hash)
    | _, _ => false)

/-- Model of `compare_snapshot_to_current`. -/
def compare_snapshot_to_current (oldFiles : List (String × FileRecord))
    (currentMeta : List (String × FileMeta)) (hashOf : String → String) :
    DetectedChanges :=
  let added := comparatorAdded0 oldFiles currentMeta
  let removed := comparatorRemoved0 oldFiles currentMeta
  let modifiedCommon := comparatorModifiedCommon oldFiles currentMeta hashOf
  let ph1 := phase1 oldFiles currentMeta hashOf added
  let added1 := added.filter (fun p => !ph1.remAdd.contains p)
  let removed1 := removed.filter (fun p => !ph1.remRem.contains p)
  let ph2 := phase2 oldFiles removed1 hashOf added1
  let added2 := added1.filter (fun p => !ph2.remAdd.contains p)
  let removed2 := removed1.filter (fun p => !ph2.remRem.contains p)
  { added := sortStrings added2,
    modified := sortStrings (dedupKeepFirst (modifiedCommon ++ ph1.modExtra)),
    removed := sortStrings removed2 }

/-- Concrete inode-reuse scenario: old file `a` (inode 5, hash h1) is gone,
new file `b` reuses inode 5 with different content. -/
def cexOldFiles : List (String × FileRecord) := [("a", ⟨1, 0, some 5, "h1"⟩)]

def cexCurrentMeta : List (String × FileMeta) := [("b", ⟨1, 0, some 5⟩)]

def cexHashOf : String → String := fun p => if p = "b" then "h2" else "h0"

/-- C3 counterexample: when a new path reuses an old record's inode with
different content, the comparator reports the new path in both `added` and
`modified`, so the three lists are not pairwise disjoint. -/
theorem comparator_disjoint_counterexample :
    compare_snapshot_to_current cexOldFiles cexCurrentMeta cexHashOf =
      { added := ["b"], modified := ["b"], removed := ["a"] } ∧
    "b" ∈ (compare_snapshot_to_current cexOldFiles cexCurrentMeta cexHashOf).added ∧
    "b" ∈ (compare_snapshot_to_current cexOldFiles cexCurrentMeta cexHashOf).modified := by
  decide

/-! ## Membership lemmas for the comparator -/

theorem mem_insertStr (x y : String) (l : List String) :
    y ∈ insertStr x l ↔ y = x ∨ y ∈ l := by
  induction l with
  | nil => simp [insertStr]
  | cons z zs ih =>
    by_cases h : x ≤ z
    · simp [insertStr, h]
    · simp only [insertStr, if_neg h, List.mem_cons, ih]
      tauto

theorem mem_sortStrings (y : String) (l : List String) :
    y ∈ sortStrings l ↔ y ∈ l := by
  induction l with
  | nil => simp [sortStrings]
  | cons z zs ih =>
    simp only [sortStrings, List.foldr_cons, mem_insertStr, List.mem_cons]
    rw [show zs.foldr insertStr [] = sortStrings zs from rfl, ih]

theorem mem_dedupAux (y : String) (l acc : List String) :
    y ∈ l.foldl (fun acc p => if p ∈ acc then acc else acc ++ [p]) acc ↔
      y ∈ acc ∨ y ∈ l := by
  induction l generalizing acc with
  | nil => simp
  | cons z zs ih =>
    simp only [List.foldl_cons, ih, List.mem_cons]
    by_cases h : z ∈ acc
    · rw [if_pos h]
      constructor
      · tauto
      · rintro (hy | rfl | hy) <;> tauto
    · rw [if_neg h]
      simp only [List.mem_append, List.mem_singleton]
      tauto

theorem mem_dedupKeepFirst (y : String) (l : List String) :
    y ∈ dedupKeepFirst l ↔ y ∈ l := by
  simpa [dedupKeepFirst] using mem_dedupAux y l []

theorem phase1Step_modExtra (oldFiles : List (String × FileRecord))
    (currentMeta : List (String × FileMeta)) (hashOf : String → String)
    (acc : RenamePhase) (newP : String) :
    (phase1Step oldFiles currentMeta hashOf acc newP).modExtra = acc.modExtra ∨
    (phase1Step oldFiles currentMeta hashOf acc newP).modExtra = acc.modExtra ++ [newP] := by
  unfold phase1Step
  repeat' split
  all_goals simp

theorem phase1_modExtra_mem (oldFiles : List (String × FileRecord))
    (currentMeta : List (String × FileMeta)) (hashOf : String → String) :
    ∀ (added : List String) (acc : RenamePhase) (p : String),
      p ∈ (added.foldl (phase1Step oldFiles currentMeta hashOf) acc).modExtra →
      p ∈ acc.modExtra ∨ p ∈ added := by
  intro added
  induction added with
  | nil => intro acc p hp; exact Or.inl hp
  | cons a rest ih =>
    intro acc p hp
    simp only [List.foldl_cons] at hp
    rcases ih _ p hp with hacc | hrest
    · rcases phase1Step_modExtra oldFiles currentMeta hashOf acc a with he | he
      · rw [he] at hacc
        exact Or.inl hacc
      · rw [he] at hacc
        rcases List.mem_append.mp hacc with h1 | h1
        · exact Or.inl h1
        · rcases List.mem_singleton.mp h1 with rfl
          exact Or.inr (List.mem_cons_self _ _)
    · exact Or.inr (List.mem_cons_of_mem _ hrest)

theorem not_mem_of_anti_filter {p : String} {l other : List String}
    (h : p ∈ l.filter (fun q => !other.contains q)) : p ∉ other := by
  have h2 := (List.mem_filter.mp h).2
  have h3 : other.contains p = false := by
    simpa using h2
  simpa using h3

/-- C3 amended: `removed` is disjoint from both `added` and `modified`; the
disjointness of `added` and `modified` fails exactly in the inode-reuse case
shown by the counterexample, where the new path lands in both. -/
theorem comparator_removed_disjoint (oldFiles : List (String × FileRecord))
    (currentMeta : List (String × FileMeta)) (hashOf : String → String) :
    (∀ p ∈ (compare_snapshot_to_current oldFiles currentMeta hashOf).removed,
        p ∉ (compare_snapshot_to_current oldFiles currentMeta hashOf).added) ∧
    (∀ p ∈ (compare_snapshot_to_current oldFiles currentMeta hashOf).removed,
        p ∉ (compare_snapshot_to_current oldFiles currentMeta hashOf).modified) := by
  have hrem : ∀ p ∈ (compare_snapshot_to_current oldFiles currentMeta hashOf).removed,
      p ∉ currentMeta.map (·.1) := by
    intro p hp
    simp only [compare_snapshot_to_current, comparatorRemoved0, mem_sortStrings] at hp
    have h1 := (List.mem_filter.mp hp).1
    have h2 := (List.mem_filter.mp h1).1
    rw [mem_sortStrings] at h2
    exact not_mem_of_anti_filter h2
  have hadd : ∀ p ∈ (compare_snapshot_to_current oldFiles currentMeta hashOf).added,
      p ∈ currentMeta.map (·.1) := by
    intro p hp
    simp only [compare_snapshot_to_current, comparatorAdded0, mem_sortStrings] at hp
    have h1 := (List.mem_filter.mp hp).1
    have h2 := (List.mem_filter.mp h1).1
    rw [mem_sortStrings] at h2
    exact (List.mem_filter.mp h2).1
  have hmod : ∀ p ∈ (compare_snapshot_to_current oldFiles currentMeta hashOf).modified,
      p ∈ currentMeta.map (·.1) := by
    intro p hp
    simp only [compare_snapshot_to_current, mem_sortStrings, mem_dedupKeepFirst] at hp
    rcases List.mem_append.mp hp with h1 | h1
    · rw [comparatorModifiedCommon] at h1
      have h2 := (List.mem_filter.mp h1).1
      rw [comparatorCommon, mem_sortStrings] at h2
      exact (List.mem_filter.mp h2).1
    · rcases phase1_modExtra_mem oldFiles currentMeta hashOf _ _ _ h1 with h2 | h2
      · simp at h2
      · rw [comparatorAdded0, mem_sortStrings] at h2
        exact (List.mem_filter.mp h2).1
  exact ⟨fun p hp hmem => hrem p hp (hadd p hmem),
         fun p hp hmem => hrem p hp (hmod p hmem)⟩

/-! ## C2: a pure rename is reported in none of the three lists -/

theorem lookupAssoc_some_mem {α : Type} {l : List (String × α)} {k : String} {v : α}
    (h : lookupAssoc l k = some v) : k ∈ l.map (·.1) := by
  unfold lookupAssoc at h
  cases hf : l.find? (fun e => e.1 == k) with
  | none => rw [hf] at h; cases h
  | some e =>
    have hmem := List.mem_of_find?_eq_some hf
    have hpred : e.1 = k := by simpa using List.find?_some hf
    exact hpred ▸ List.mem_map_of_mem (·.1) hmem

theorem mem_lookupAssoc_some {α : Type} {l : List (String × α)} {k : String}
    (h : k ∈ l.map (·.1)) : ∃ v, lookupAssoc l k = some v := by
  induction l with
  | nil => simp at h
  | cons e rest ih =>
    by_cases he : e.1 = k
    · exact ⟨e.2, by simp [lookupAssoc, List.find?_cons, he]⟩
    · have hr : k ∈ rest.map (·.1) := by
        rcases List.mem_cons.mp h with h1 | h1
        · exact absurd h1.symm he
        · exact h1
      obtain ⟨v, hv⟩ := ih hr
      refine ⟨v, ?_⟩
      have hb : (e.1 == k) = false := by simp [he]
      simpa [lookupAssoc, List.find?_cons, hb] using hv

theorem filter_eq_nil_of {α : Type} {l : List α} {f : α → Bool}
    (h : ∀ a ∈ l, f a = false) : l.filter f = [] := by
  induction l with
  | nil => rfl
  | cons a rest ih =>
    simp [List.filter_cons, h a (List.mem_cons_self a rest),
      ih (fun b hb => h b (List.mem_cons_of_mem a hb))]

theorem filter_eq_single {l : List String} {x : String} {f : String → Bool}
    (hn : l.Nodup) (hx : x ∈ l) (hf : ∀ y ∈ l, (f y = true ↔ y = x)) :
    l.filter f = [x] := by
  induction l with
  | nil => cases hx
  | cons a rest ih =>
    rcases List.mem_cons.mp hx with h1 | hxr
    · subst h1
      have hfa : f x = true := (hf x (List.mem_cons_self x rest)).mpr rfl
      have hrest : rest.filter f = [] := by
        apply filter_eq_nil_of
        intro y hy
        by_contra hfy
        have hya : y = x :=
          (hf y (List.mem_cons_of_mem x hy)).mp (Bool.of_not_eq_false hfy)
        exact (List.nodup_cons.mp hn).1 (hya ▸ hy)
      simp [List.filter_cons, hfa, hrest]
    · have hax : a ≠ x := fun he => (List.nodup_cons.mp hn).1 (he ▸ hxr)
      have hfa : f a = false := by
        by_contra hfy
        exact hax ((hf a (List.mem_cons_self a rest)).mp (Bool.of_not_eq_false hfy))
      have hrest := ih (List.nodup_cons.mp hn).2 hxr
        (fun y hy => hf y (List.mem_cons_of_mem a hy))
      simp [List.filter_cons, hfa, hrest]

/-- C2: for an old snapshot and current metadata that differ only in one
file's relative path (content hash unchanged), detected either through the
inode map or, failing an inode match, through the surviving removed paths'
content hashes, the comparator reports no changes at all; in particular the
file's old and new paths appear in none of `added`, `modified`, `removed`. -/
theorem comparator_pure_rename
    (oldFiles : List (String × FileRecord)) (currentMeta : List (String × FileMeta))
    (hashOf : String → String) (pOld pNew : String) (rec : FileRecord) (m : FileMeta)
    (huniqNew : (currentMeta.map (·.1)).Nodup)
    (hrec : lookupAssoc oldFiles pOld = some rec)
    (hmeta : lookupAssoc currentMeta pNew = some m)
    (holdGone : pOld ∉ currentMeta.map (·.1))
    (hnewFresh : pNew ∉ oldFiles.map (·.1))
    (hsame : ∀ p, p ≠ pOld → p ≠ pNew →
      (p ∈ oldFiles.map (·.1) ↔ p ∈ currentMeta.map (·.1)))
    (hnodupOld : (oldFiles.map (·.1)).Nodup)
    (hmetaSame : ∀ p r2 m2, p ≠ pOld → p ≠ pNew →
      lookupAssoc oldFiles p = some r2 → lookupAssoc currentMeta p = some m2 →
      metaUnchanged r2 m2 = true)
    (hhash : hashOf pNew = rec.hash)
    (hPOldNe : pOld ≠ "")
    (hdetect : (∃ i, m.inode = some i ∧ oldInodeLookup oldFiles i = some pOld) ∨
               (∀ i, m.inode = some i → oldInodeLookup oldFiles i = none)) :
    compare_snapshot_to_current oldFiles currentMeta hashOf =
      { added := [], modified := [], removed := [] } ∧
    pOld ∉ (compare_snapshot_to_current oldFiles currentMeta hashOf).added ∧
    pNew ∉ (compare_snapshot_to_current oldFiles currentMeta hashOf).added ∧
    pOld ∉ (compare_snapshot_to_current oldFiles currentMeta hashOf).modified ∧
    pNew ∉ (compare_snapshot_to_current oldFiles currentMeta hashOf).modified ∧
    pOld ∉ (compare_snapshot_to_current oldFiles currentMeta hashOf).removed ∧
    pNew ∉ (compare_snapshot_to_current oldFiles currentMeta hashOf).removed := by
  have hpOldMem : pOld ∈ oldFiles.map (·.1) := lookupAssoc_some_mem hrec
  have hpNewMem : pNew ∈ currentMeta.map (·.1) := lookupAssoc_some_mem hmeta
  have hadded0 : comparatorAdded0 oldFiles currentMeta = [pNew] := by
    rw [comparatorAdded0]
    rw [filter_eq_single huniqNew hpNewMem ?_]
    · rfl
    · intro y hy
      constructor
      · intro hfy
        by_contra hyne
        have hyOld : y ≠ pOld := fun he => holdGone (he ▸ hy)
        have hmem : y ∈ oldFiles.map (·.1) := (hsame y hyOld hyne).mpr hy
        have : y ∉ oldFiles.map (·.1) := by simpa using hfy
        exact this hmem
      · rintro rfl
        simpa using hnewFresh
  have hremoved0 : comparatorRemoved0 oldFiles currentMeta = [pOld] := by
    rw [comparatorRemoved0]
    rw [filter_eq_single hnodupOld hpOldMem ?_]
    · rfl
    · intro y hy
      constructor
      · intro hfy
        by_contra hyne
        have hyNew : y ≠ pNew := fun he => hnewFresh (he ▸ hy)
        have hmem : y ∈ currentMeta.map (·.1) := (hsame y hyne hyNew).mp hy
        have : y ∉ currentMeta.map (·.1) := by simpa using hfy
        exact this hmem
      · rintro rfl
        simpa using holdGone
  have hmodc : comparatorModifiedCommon oldFiles currentMeta hashOf = [] := by
    rw [comparatorModifiedCommon]
    apply filter_eq_nil_of
    intro p hp
    rw [comparatorCommon, mem_sortStrings] at hp
    have hpNew2 := (List.mem_filter.mp hp).1
    have hpOld2 : p ∈ oldFiles.map (·.1) := by
      simpa using (List.mem_filter.mp hp).2
    have hnePO : p ≠ pOld := fun he => holdGone (he ▸ hpNew2)
    have hnePN : p ≠ pNew := fun he => hnewFresh (he ▸ hpOld2)
    obtain ⟨r2, hr2⟩ := mem_lookupAssoc_some hpOld2
    obtain ⟨m2, hm2⟩ := mem_lookupAssoc_some hpNew2
    rw [hm2, hr2]
    simp [hmetaSame p r2 m2 hnePO hnePN hr2 hm2]
  have hmain : compare_snapshot_to_current oldFiles currentMeta hashOf =
      { added := [], modified := [], removed := [] } := by
    rcases hdetect with ⟨i, hi, hlook⟩ | hNone
    · have hph1 : phase1 oldFiles currentMeta hashOf [pNew] =
          { remAdd := [pNew], remRem := [pOld], modExtra := [] } := by
        simp [phase1, phase1Step, hmeta, hi, hlook, hPOldNe, hrec, hhash]
      rw [compare_snapshot_to_current, hadded0, hremoved0, hmodc, hph1]
      simp [phase2, sortStrings, dedupKeepFirst]
    · have hph1 : phase1 oldFiles currentMeta hashOf [pNew] =
          { remAdd := [], remRem := [], modExtra := [] } := by
        cases hmi : m.inode with
        | none => simp [phase1, phase1Step, hmeta, hmi]
        | some i => simp [phase1, phase1Step, hmeta, hmi, hNone i hmi]
      have hph2 : phase2 oldFiles [pOld] hashOf [pNew] =
          { remAdd := [pNew], remRem := [pOld], modExtra := [] } := by
        simp [phase2, phase2Step, removedHashLookup, hrec, hhash, hPOldNe]
      rw [compare_snapshot_to_current, hadded0, hremoved0, hmodc, hph1]
      simp only [List.filter_nil, List.contains_nil, Bool.not_false, List.filter_cons,
        List.filter_nil]
      simp [hph2, sortStrings, dedupKeepFirst]
  refine ⟨hmain, ?_, ?_, ?_, ?_, ?_, ?_⟩ <;> simp [hmain]

/-- C2 witness: the pure-rename theorem at a concrete one-file rename
(`a` to `b`, inode 5, unchanged hash `h1`), detected by inode. -/
theorem comparator_pure_rename_witness :
    compare_snapshot_to_current [("a", ⟨1, 0, some 5, "h1"⟩)] [("b", ⟨1, 0, some 5⟩)]
        (fun _ => "h1") =
      { added := [], modified := [], removed := [] } ∧
    "a" ∉ (compare_snapshot_to_current [("a", ⟨1, 0, some 5, "h1"⟩)]
        [("b", ⟨1, 0, some 5⟩)] (fun _ => "h1")).added ∧
    "b" ∉ (compare_snapshot_to_current [("a", ⟨1, 0, some 5, "h1"⟩)]
        [("b", ⟨1, 0, some 5⟩)] (fun _ => "h1")).added ∧
    "a" ∉ (compare_snapshot_to_current [("a", ⟨1, 0, some 5, "h1"⟩)]
        [("b", ⟨1, 0, some 5⟩)] (fun _ => "h1")).modified ∧
    "b" ∉ (compare_snapshot_to_current [("a", ⟨1, 0, some 5, "h1"⟩)]
        [("b", ⟨1, 0, some 5⟩)] (fun _ => "h1")).modified ∧
    "a" ∉ (compare_snapshot_to_current [("a", ⟨1, 0, some 5, "h1"⟩)]
        [("b", ⟨1, 0, some 5⟩)] (fun _ => "h1")).removed ∧
    "b" ∉ (compare_snapshot_to_current [("a", ⟨1, 0, some 5, "h1"⟩)]
        [("b", ⟨1, 0, some 5⟩)] (fun _ => "h1")).removed :=
  comparator_pure_rename [("a", ⟨1, 0, some 5, "h1"⟩)] [("b", ⟨1, 0, some 5⟩)]
    (fun _ => "h1") "a" "b" ⟨1, 0, some 5, "h1"⟩ ⟨1, 0, some 5⟩
    (by decide) (by decide) (by decide) (by decide) (by decide)
    (by intro p h1 h2; constructor <;> intro hm <;> simp_all)
    (by decide)
    (by
      intro p r2 m2 h1 h2 hl hm
      exfalso
      have hb : (("a" : String) == p) = false := by
        simpa using Ne.symm h1
      simp [lookupAssoc, List.find?_cons, hb] at hl)
    (by decide) (by decide)
    (Or.inl ⟨5, by decide, by decide⟩)

/-! ## Search service (`core/services/search_service.py`)

The vector database and graph database are external systems: the points a
hybrid query returns, whether the collection exists, and the nodes a graph
traversal yields enter the embedding as oracle values carried by
`SearchState`. The `Nat` component of `search`'s result counts the
`query_points` calls issued against the vector DB. -/

structure SearchResult where
  content : String
  doc : Option String
  relative_path : String
  start_line : Int
  end_line : Int
  language : String
  score : Rat
deriving DecidableEq

/-- A point returned by the vector DB, with the payload keys `search` reads. -/
structure PointPayload where
  content : Option String := none
  doc : Option String := none
  relative_path : Option String := none
  start_line : Option Int := none
  end_line : Option Int := none
  language : Option String := none
deriving DecidableEq

structure ScoredPoint where
  id : String
  payload : PointPayload
  score : Rat
deriving DecidableEq

/-- The `SearchResult` built from a returned point in `_perform_search`
(`payload.get` with the defaults of the source). -/
def resultOfPoint (pt : ScoredPoint) : SearchResult :=
  { content := pt.payload.content.getD "", doc := pt.payload.doc,
    relative_path := pt.payload.relative_path.getD "",
    start_line := pt.payload.start_line.getD 0,
    end_line := pt.payload.end_line.getD 0,
    language := pt.payload.language.getD "unknown", score := pt.score }

/-- Model of `_perform_search`: one hybrid query returns the ranked points;
the results and the point-id list are built in one pass. -/
def performSearch (points : List ScoredPoint) : List SearchResult × List String :=
  (points.map resultOfPoint, points.map (·.id))

/-- A graph node as the graph service returns it. -/
structure GraphNode where
  id : String
  content : Option String := none
  doc : Option String := none
  relative_path : Option String := none
  start_line : Option Int := none
  end_line : Option Int := none
  language : Option String := none
deriving DecidableEq

/-- The `SearchResult` a graph neighbor is converted to: score 0.0. -/
def resultOfGraphNode (n : GraphNode) : SearchResult :=
  { content := n.content.getD "", doc := n.doc,
    relative_path := n.relative_path.getD "",
    start_line := n.start_line.getD 0, end_line := n.end_line.getD 0,
    language := n.language.getD "unknown", score := 0 }

/-- Python list slicing `l[:n]` (a negative bound counts from the end). -/
def pyTake {α : Type} (n : Int) (l : List α) : List α :=
  if 0 ≤ n then l.take n.toNat else l.take ((l.length : Int) + n).toNat

/-- The neighbor loop of `_expand_with_graph`: skip falsy or already-present
ids, append with the dedup map extended, and stop once the running list has
reached `limit`. -/
def addGraphNodes (limit : Int) : List GraphNode → List String → List SearchResult →
    List SearchResult
  | [], _, ordered => ordered
  | node :: rest, known, ordered =>
    if node.id = "" ∨ node.id ∈ known then addGraphNodes limit rest known ordered
    else
      let ordered2 := ordered ++ [resultOfGraphNode node]
      if (ordered2.length : Int) ≥ limit then ordered2
      else addGraphNodes limit rest (known ++ [node.id]) ordered2

/-- Model of `_expand_with_graph`. -/
def expandWithGraph (graphAvailable : Bool) (graphOutcome : Except Unit (List GraphNode))
    (seeds : List SearchResult) (seedIds : List String) (limit : Int)
    (maxHops : Option Int) : List SearchResult :=
  if graphAvailable = false ∨ maxHops = none ∨ seeds = [] ∨ seedIds = [] then seeds
  else
    match graphOutcome with
    | .error _ => seeds
    | .ok nodes =>
      pyTake limit (addGraphNodes limit nodes (seedIds.take seeds.length)
        (seeds.take seedIds.length))

inductive SearchError where
  | validation (msg : String)
  | notIndexed
deriving DecidableEq

/-- `max_graph_hops is not None and max_graph_hops < 1`. -/
def hopsInvalid : Option Int → Bool
  | some h => h < 1
  | none => false

/-- `graph_limit or self._DEFAULT_GRAPH_LIMIT` (Python `or`: `None` and 0 are
falsy). -/
def graphLimitOrDefault : Option Int → Int
  | none => 30
  | some g => if g = 0 then 30 else g

/-- The external state `search` runs against. -/
structure SearchState where
  collectionExists : Bool
  points : List ScoredPoint
  graphAvailable : Bool
  graphOutcome : Except Unit (List GraphNode)

/-- Model of `SearchService.search`: argument validation in source order, the
collection-existence check, one hybrid query, then graph expansion. The
second component counts vector-DB queries issued. -/
def SearchService.search (st : SearchState) (query : String) (top_k : Int)
    (threshold : Rat) (max_graph_hops : Option Int) (graph_limit : Option Int) :
    Except SearchError (List SearchResult) × Nat :=
  if query = "" ∨ pyStrip query = "" then
    (.error (.validation "Search query cannot be empty"), 0)
  else if ¬(1 ≤ top_k ∧ top_k ≤ 50) then
    (.error (.validation "top_k must be between 1 and 50"), 0)
  else if ¬(0 ≤ threshold ∧ threshold ≤ 1) then
    (.error (.validation "threshold must be between 0.0 and 1.0"), 0)
  else if hopsInvalid max_graph_hops then
    (.error (.validation "max_graph_hops must be at least 1 when provided"), 0)
  else if st.collectionExists = false then
    (.error .notIndexed, 0)
  else
    (.ok (expandWithGraph st.graphAvailable st.graphOutcome
      (performSearch st.points).1 (performSearch st.points).2
      (graphLimitOrDefault graph_limit) max_graph_hops), 1)

/-- C7: `search` fails with a validation error exactly when the query is
empty or whitespace-only, `top_k` is outside 1..50, `threshold` is outside
0..1, or `max_graph_hops` is given and below 1; with valid arguments it fails
with the not-indexed error exactly when the collection does not exist; and in
every failure case no query is issued against the vector DB. -/
theorem search_validation_spec (st : SearchState) (query : String) (top_k : Int)
    (threshold : Rat) (mh : Option Int) (gl : Option Int) :
    ((∃ msg, (SearchService.search st query top_k threshold mh gl).1 =
        .error (.validation msg)) ↔
      (pyStrip query = "" ∨ ¬(1 ≤ top_k ∧ top_k ≤ 50) ∨
       ¬(0 ≤ threshold ∧ threshold ≤ 1) ∨ hopsInvalid mh = true)) ∧
    (((SearchService.search st query top_k threshold mh gl).1 = .error .notIndexed) ↔
      (¬(pyStrip query = "") ∧ (1 ≤ top_k ∧ top_k ≤ 50) ∧
       (0 ≤ threshold ∧ threshold ≤ 1) ∧ hopsInvalid mh = false ∧
       st.collectionExists = false)) ∧
    (∀ e, (SearchService.search st query top_k threshold mh gl).1 = .error e →
      (SearchService.search st query top_k threshold mh gl).2 = 0) := by
  have hq : (query = "" ∨ pyStrip query = "") ↔ pyStrip query = "" := by
    constructor
    · rintro (rfl | h)
      · rfl
      · exact h
    · exact Or.inr
  unfold SearchService.search
  split_ifs with h1 h2 h3 h4 h5 <;> simp_all

/-- Concrete seeds for the graph-merge counterexample. -/
def seedA : SearchResult := ⟨"A", none, "a.py", 1, 2, "python", 1⟩

def seedB : SearchResult := ⟨"B", none, "b.py", 3, 4, "python", 0⟩

/-- C8 counterexample: with two seeds and `graph_limit = 1`, the merged
result is the first seed alone, so the seed list is not a prefix of the
merged result. -/
theorem graph_merge_counterexample :
    expandWithGraph true (.ok []) [seedA, seedB] ["1", "2"] 1 (some 1) = [seedA] ∧
    ¬ ∃ t, expandWithGraph true (.ok []) [seedA, seedB] ["1", "2"] 1 (some 1) =
        [seedA, seedB] ++ t := by
  constructor
  · decide
  · rintro ⟨t, ht⟩
    have hlen := congrArg List.length ht
    simp [expandWithGraph, pyTake, addGraphNodes, seedA, seedB] at hlen

/-- What the neighbor loop appends: a subsequence of the returned nodes, each
with a non-empty id not already known, ids pairwise distinct. -/
theorem addGraphNodes_spec (limit : Int) :
    ∀ (nodes : List GraphNode) (known : List String) (ordered : List SearchResult),
      ∃ picked : List GraphNode,
        picked.Sublist nodes ∧
        addGraphNodes limit nodes known ordered =
          ordered ++ picked.map resultOfGraphNode ∧
        (∀ n ∈ picked, n.id ∉ known ∧ n.id ≠ "") ∧
        (picked.map (·.id)).Nodup := by
  intro nodes
  induction nodes with
  | nil =>
    intro known ordered
    exact ⟨[], by simp, by simp [addGraphNodes], by simp, by simp⟩
  | cons node rest ih =>
    intro known ordered
    by_cases hskip : node.id = "" ∨ node.id ∈ known
    · obtain ⟨picked, hsub, heq, hknown, hnodup⟩ := ih known ordered
      refine ⟨picked, hsub.cons _, ?_, hknown, hnodup⟩
      rw [addGraphNodes, if_pos hskip]
      exact heq
    · push_neg at hskip
      by_cases hstop : ((ordered ++ [resultOfGraphNode node]).length : Int) ≥ limit
      · refine ⟨[node], ?_, ?_, ?_, by simp⟩
        · exact List.Sublist.cons₂ node (List.nil_sublist rest)
        · rw [addGraphNodes, if_neg (by tauto), if_pos hstop]
          simp
        · intro n hn
          rcases List.mem_singleton.mp hn with rfl
          exact ⟨hskip.2, hskip.1⟩
      · obtain ⟨picked, hsub, heq, hknown, hnodup⟩ :=
          ih (known ++ [node.id]) (ordered ++ [resultOfGraphNode node])
        refine ⟨node :: picked, List.Sublist.cons₂ node hsub, ?_, ?_, ?_⟩
        · rw [addGraphNodes, if_neg (by tauto), if_neg hstop, heq]
          simp
        · intro n hn
          rcases List.mem_cons.mp hn with rfl | hn2
          · exact ⟨hskip.2, hskip.1⟩
          · have := hknown n hn2
            exact ⟨fun hmem => this.1 (List.mem_append_left _ hmem), this.2⟩
        · rw [List.map_cons, List.nodup_cons]
          refine ⟨?_, hnodup⟩
          intro hmem
          rcases List.mem_map.mp hmem with ⟨n2, hn2, hid⟩
          exact (hknown n2 hn2).1 (List.mem_append_right _ (hid ▸ List.mem_singleton_self _))

/-- C8 amended: when the seed count does not exceed `graph_limit`, the merged
result is the seeds followed by a subsequence of the graph nodes with fresh,
pairwise-distinct, non-empty ids, each converted with score 0.0, and the
total is capped at `graph_limit`; when the graph service is unavailable,
`max_graph_hops` is `None`, the seeds are empty, or expansion fails, the
result is exactly the seed list. A seed list longer than `graph_limit` is
itself truncated, as the counterexample shows. -/
theorem graph_merge_amended (nodes : List GraphNode) (seeds : List SearchResult)
    (seedIds : List String) (limit : Int) (h : Int)
    (hlen : seedIds.length = seeds.length)
    (hcap : (seeds.length : Int) ≤ limit) :
    (∃ picked : List GraphNode,
        picked.Sublist nodes ∧
        expandWithGraph true (.ok nodes) seeds seedIds limit (some h) =
          seeds ++ picked.map resultOfGraphNode ∧
        (∀ n ∈ picked, n.id ∉ seedIds ∧ n.id ≠ "") ∧
        (picked.map (·.id)).Nodup ∧
        (∀ n ∈ picked, (resultOfGraphNode n).score = 0)) ∧
    ((expandWithGraph true (.ok nodes) seeds seedIds limit (some h)).length : Int) ≤
      limit ∧
    (∀ (g : Bool) (oc : Except Unit (List GraphNode)) (s : List SearchResult)
        (si : List String) (l : Int) (mh : Option Int),
      (g = false ∨ mh = none ∨ s = [] ∨ si = []) → expandWithGraph g oc s si l mh = s) ∧
    (∀ (s : List SearchResult) (si : List String) (l : Int) (mh : Option Int),
      expandWithGraph true (.error ()) s si l mh = s) := by
  have hguard : ∀ (g : Bool) (oc : Except Unit (List GraphNode)) (s : List SearchResult)
      (si : List String) (l : Int) (mh : Option Int),
      (g = false ∨ mh = none ∨ s = [] ∨ si = []) → expandWithGraph g oc s si l mh = s := by
    intro g oc s si l mh hg
    rw [expandWithGraph.eq_def, if_pos hg]
  have herr : ∀ (s : List SearchResult) (si : List String) (l : Int) (mh : Option Int),
      expandWithGraph true (.error ()) s si l mh = s := by
    intro s si l mh
    rw [expandWithGraph.eq_def]
    split
    · rfl
    · rfl
  by_cases hempty : seeds = [] ∨ seedIds = []
  · have hboth : seeds = [] ∧ seedIds = [] := by
      rcases hempty with he | he
      · exact ⟨he, List.eq_nil_of_length_eq_zero (by simp [hlen, he])⟩
      · exact ⟨List.eq_nil_of_length_eq_zero (by simp [← hlen, he]), he⟩
    have hres : expandWithGraph true (.ok nodes) seeds seedIds limit (some h) = seeds :=
      hguard _ _ _ _ _ _ (Or.inr (Or.inr (Or.inl hboth.1)))
    refine ⟨⟨[], by simp, by simp [hres], by simp, by simp, by simp⟩, ?_, hguard, herr⟩
    rw [hres, hboth.1]
    simp only [List.length_nil, Nat.cast_zero]
    omega
  · push_neg at hempty
    have hcond : ¬(true = false ∨ (some h : Option Int) = none ∨ seeds = [] ∨
        seedIds = []) := by
      simp [hempty.1, hempty.2]
    have hrw : expandWithGraph true (.ok nodes) seeds seedIds limit (some h) =
        pyTake limit (addGraphNodes limit nodes (seedIds.take seeds.length)
          (seeds.take seedIds.length)) := by
      rw [expandWithGraph.eq_def, if_neg hcond]
    obtain ⟨picked, hsub, heq, hknown, hnodup⟩ :=
      addGraphNodes_spec limit nodes (seedIds.take seeds.length)
        (seeds.take seedIds.length)
    have htk1 : seeds.take seedIds.length = seeds := by
      rw [hlen]
      exact List.take_length seeds
    have htk2 : seedIds.take seeds.length = seedIds := by
      rw [← hlen]
      exact List.take_length seedIds
    rw [htk1, htk2] at heq
    have hlim0 : 0 ≤ limit := by omega
    have htakeN : pyTake limit (seeds ++ picked.map resultOfGraphNode) =
        seeds ++ (picked.take (limit.toNat - seeds.length)).map resultOfGraphNode := by
      rw [pyTake, if_pos hlim0, List.take_append_eq_append_take]
      have hsl : seeds.length ≤ limit.toNat := by omega
      rw [List.take_of_length_le hsl, List.map_take]
    refine ⟨⟨picked.take (limit.toNat - seeds.length),
        (List.take_sublist _ _).trans hsub, ?_, ?_, ?_, ?_⟩, ?_, hguard, herr⟩
    · rw [hrw, htk2, htk1, heq, htakeN]
    · intro n hn
      have := hknown n (List.mem_of_mem_take hn)
      rw [htk2] at this
      exact this
    · rw [List.map_take]
      exact List.Nodup.sublist (List.take_sublist _ _) hnodup
    · intro n _
      rfl
    · rw [hrw, htk2, htk1, heq, htakeN]
      have h1 : ((picked.take (limit.toNat - seeds.length)).map
          resultOfGraphNode).length ≤ limit.toNat - seeds.length := by
        simp only [List.length_map, List.length_take]
        exact min_le_left _ _
      rw [List.length_append]
      omega

/-- C8 witness: the amended theorem at a concrete input (one seed, no
neighbors, limit 3). -/
theorem graph_merge_amended_witness :
    ((expandWithGraph true (.ok []) [seedA] ["1"] 3 (some 2)).length : Int) ≤ 3 :=
  (graph_merge_amended [] [seedA] ["1"] 3 2 (by decide) (by decide)).2.1

/-! ## Indexing orchestration (`core/services/indexing_service.py`)

`IndexingService.index` is modelled by the ordered trace of its observable
side effects after change detection: one vector-DB delete per `to_remove`
path, one vector-DB upsert per non-empty chunk batch, and the snapshot
commit. File reading, splitting and embedding are external within this
claim; the chunks each `to_add` file yields enter as the oracle `chunksOf`
(`none` models an unreadable file, which `_get_chunks` skips). -/

inductive IndexEvent where
  | deletePath (path : String)
  | upsertBatch (chunks : List CodeChunk)
  | snapshotWrite
deriving DecidableEq

def IndexEvent.isDelete : IndexEvent → Bool
  | .deletePath _ => true
  | _ => false

def IndexEvent.isUpsert : IndexEvent → Bool
  | .upsertBatch _ => true
  | _ => false

def IndexEvent.deletedPath : IndexEvent → Option String
  | .deletePath p => some p
  | _ => none

def IndexEvent.batchChunks : IndexEvent → Option (List CodeChunk)
  | .upsertBatch b => some b
  | _ => none

/-- `itertools.batched`: consecutive groups of `n`, the last possibly
shorter. `acc` is the current group, reversed. -/
def batchedGo {α : Type} (n : Nat) : List α → List α → List (List α)
  | [], acc => if acc.isEmpty then [] else [acc.reverse]
  | x :: rest, acc =>
    let acc2 := x :: acc
    if acc2.length = n then acc2.reverse :: batchedGo n rest []
    else batchedGo n rest acc2

def batched {α : Type} (n : Nat) (l : List α) : List (List α) :=
  batchedGo n l []

def ITER_BATCH_SIZE : Nat := 128

/-- Model of `IndexingService._delete_file_chunks`: one delete-by-filter per
path, in list order. -/
def deleteFileChunksEvents (paths : List String) : List IndexEvent :=
  paths.map IndexEvent.deletePath

/-- Model of `IndexingService._get_chunks`: split every readable file of the
list, concatenating the chunks in file order. -/
def getChunks (files : List String) (chunksOf : String → Option (List CodeChunk)) :
    List CodeChunk :=
  files.flatMap (fun f => (chunksOf f).getD [])

/-- The upsert events of the batch loop of `IndexingService.index`: batches
of 128 chunks, empty batches skipped. -/
def upsertEvents (chunks : List CodeChunk) : List IndexEvent :=
  ((batched ITER_BATCH_SIZE chunks).filter (fun b => !b.isEmpty)).map
    IndexEvent.upsertBatch

/-- Modelled from the spec: the `FileSynchronizer` that
`services/indexing_service.py` calls (constructed from a snapshots
directory, `check_for_changes(codebase_path)`, `delete_snapshot(path)`) is
not among the repository's files — `core/sync/files.py` holds an
incompatible legacy class — so the snapshot commit follows the spec's
sections 4.4 and 4.9: the detector persists the fresh snapshot only after
the caller has processed the changes, a single write at the end of the run. -/
def snapshotCommitEvents : List IndexEvent := [IndexEvent.snapshotWrite]

/-- Model of the observable side-effect trace of `IndexingService.index`
after change detection: no changes means no effects; otherwise deletes for
`to_remove`, then the chunk-batch upserts for `to_add`, then the snapshot
commit. -/
def IndexingService.indexEvents (changes : DetectedChanges)
    (chunksOf : String → Option (List CodeChunk)) : List IndexEvent :=
  if changes.num_changes = 0 then []
  else
    deleteFileChunksEvents changes.to_remove ++
    upsertEvents (getChunks changes.to_add chunksOf) ++
    snapshotCommitEvents

theorem batchedGo_flatten {α : Type} (n : Nat) :
    ∀ (l acc : List α), (batchedGo n l acc).flatten = acc.reverse ++ l := by
  intro l
  induction l with
  | nil =>
    intro acc
    by_cases h : acc.isEmpty
    · simp [batchedGo, h, List.isEmpty_iff.mp h]
    · simp [batchedGo, h]
  | cons x rest ih =>
    intro acc
    rw [batchedGo]
    by_cases h : (x :: acc).length = n
    · simp only [if_pos h, List.flatten_cons, ih []]
      simp
    · simp only [if_neg h, ih (x :: acc)]
      simp

theorem batched_flatten {α : Type} (n : Nat) (l : List α) : (batched n l).flatten = l := by
  simpa using batchedGo_flatten n l []

theorem batchedGo_sizes {α : Type} (n : Nat) :
    ∀ (l acc : List α), acc.length < n →
      ∀ b ∈ batchedGo n l acc, b ≠ [] ∧ b.length ≤ n := by
  intro l
  induction l with
  | nil =>
    intro acc hacc b hb
    by_cases h : acc.isEmpty
    · simp [batchedGo, h] at hb
    · rw [batchedGo, if_neg h] at hb
      rcases List.mem_singleton.mp hb with rfl
      constructor
      · simpa [List.isEmpty_iff] using h
      · simpa using Nat.le_of_lt hacc
  | cons x rest ih =>
    intro acc hacc b hb
    rw [batchedGo] at hb
    by_cases h : (x :: acc).length = n
    · rw [if_pos h] at hb
      rcases List.mem_cons.mp hb with rfl | hb2
      · constructor
        · simp
        · simpa using Nat.le_of_eq h
      · have hn : 0 < n := h ▸ (by simp : 0 < (x :: acc).length)
        exact ih [] (by simp only [List.length_nil]; exact hn) b hb2
    · rw [if_neg h] at hb
      have hlt : (x :: acc).length < n := by
        simp only [List.length_cons] at h ⊢
        omega
      exact ih (x :: acc) hlt b hb

theorem map_deletePath_filterMap_deletedPath (paths : List String) :
    (paths.map IndexEvent.deletePath).filterMap IndexEvent.deletedPath = paths := by
  induction paths with
  | nil => rfl
  | cons p rest ih => simp [List.filterMap_cons, IndexEvent.deletedPath, ih]

theorem map_upsertBatch_filterMap_deletedPath (bs : List (List CodeChunk)) :
    (bs.map IndexEvent.upsertBatch).filterMap IndexEvent.deletedPath = [] := by
  induction bs with
  | nil => rfl
  | cons b rest ih => simp [List.filterMap_cons, IndexEvent.deletedPath, ih]

theorem map_upsertBatch_filterMap_batchChunks (bs : List (List CodeChunk)) :
    (bs.map IndexEvent.upsertBatch).filterMap IndexEvent.batchChunks = bs := by
  induction bs with
  | nil => rfl
  | cons b rest ih => simp [List.filterMap_cons, IndexEvent.batchChunks, ih]

theorem map_deletePath_filterMap_batchChunks (paths : List String) :
    (paths.map IndexEvent.deletePath).filterMap IndexEvent.batchChunks = [] := by
  induction paths with
  | nil => rfl
  | cons p rest ih => simp [List.filterMap_cons, IndexEvent.batchChunks, ih]

theorem flatten_filter_nonempty {α : Type} (ls : List (List α)) :
    (ls.filter (fun b => !b.isEmpty)).flatten = ls.flatten := by
  induction ls with
  | nil => rfl
  | cons b rest ih =>
    by_cases h : b.isEmpty
    · simp [List.filter_cons, h, List.isEmpty_iff.mp h, ih]
    · simp [List.filter_cons, h, ih]

theorem getLast?_append_singleton {α : Type} (l : List α) (a : α) :
    (l ++ [a]).getLast? = some a := by
  simp

/-- C1: after change detection finds work to do, the observable side-effect
trace of `index` is exactly its vector-DB deletes, then its chunk-batch
upserts, then the snapshot commit: deletes carry the `to_remove` paths in
order, the upserted batches concatenate to the `to_add` chunks in order with
every batch non-empty and at most 128 chunks, and the snapshot write is the
last event and occurs nowhere earlier. -/
theorem index_event_order (changes : DetectedChanges)
    (chunksOf : String → Option (List CodeChunk)) (hch : changes.num_changes ≠ 0) :
    IndexingService.indexEvents changes chunksOf =
      (IndexingService.indexEvents changes chunksOf).filter (·.isDelete) ++
        (IndexingService.indexEvents changes chunksOf).filter (·.isUpsert) ++
        [IndexEvent.snapshotWrite] ∧
    (IndexingService.indexEvents changes chunksOf).filterMap IndexEvent.deletedPath =
      changes.to_remove ∧
    ((IndexingService.indexEvents changes chunksOf).filterMap
        IndexEvent.batchChunks).flatten = getChunks changes.to_add chunksOf ∧
    (∀ b ∈ (IndexingService.indexEvents changes chunksOf).filterMap
        IndexEvent.batchChunks, b ≠ [] ∧ b.length ≤ ITER_BATCH_SIZE) ∧
    (IndexingService.indexEvents changes chunksOf).getLast? =
      some IndexEvent.snapshotWrite ∧
    (∀ e ∈ (IndexingService.indexEvents changes chunksOf).dropLast,
      e ≠ IndexEvent.snapshotWrite) := by
  have hevs : IndexingService.indexEvents changes chunksOf =
      deleteFileChunksEvents changes.to_remove ++
      upsertEvents (getChunks changes.to_add chunksOf) ++ snapshotCommitEvents := by
    rw [IndexingService.indexEvents, if_neg hch]
  have hfilterMapD : (IndexingService.indexEvents changes chunksOf).filterMap
      IndexEvent.deletedPath = changes.to_remove := by
    rw [hevs, deleteFileChunksEvents, upsertEvents, snapshotCommitEvents]
    rw [List.filterMap_append, List.filterMap_append]
    rw [map_deletePath_filterMap_deletedPath, map_upsertBatch_filterMap_deletedPath]
    simp [List.filterMap_cons, IndexEvent.deletedPath]
  have hfilterMapB : (IndexingService.indexEvents changes chunksOf).filterMap
      IndexEvent.batchChunks =
      (batched ITER_BATCH_SIZE (getChunks changes.to_add chunksOf)).filter
        (fun b => !b.isEmpty) := by
    rw [hevs, deleteFileChunksEvents, upsertEvents, snapshotCommitEvents]
    rw [List.filterMap_append, List.filterMap_append]
    rw [map_deletePath_filterMap_batchChunks, map_upsertBatch_filterMap_batchChunks]
    simp [List.filterMap_cons, IndexEvent.batchChunks]
  refine ⟨?_, hfilterMapD, ?_, ?_, ?_, ?_⟩
  · have fD1 : (deleteFileChunksEvents changes.to_remove).filter (·.isDelete) =
        deleteFileChunksEvents changes.to_remove := by
      apply List.filter_eq_self.mpr
      intro e he
      rcases List.mem_map.mp (by simpa [deleteFileChunksEvents] using he) with ⟨p, _, rfl⟩
      rfl
    have fD2 : (upsertEvents (getChunks changes.to_add chunksOf)).filter (·.isDelete) =
        [] := by
      apply filter_eq_nil_of
      intro e he
      rw [upsertEvents] at he
      rcases List.mem_map.mp he with ⟨b, _, rfl⟩
      rfl
    have fU1 : (upsertEvents (getChunks changes.to_add chunksOf)).filter (·.isUpsert) =
        upsertEvents (getChunks changes.to_add chunksOf) := by
      apply List.filter_eq_self.mpr
      intro e he
      rw [upsertEvents] at he
      rcases List.mem_map.mp he with ⟨b, _, rfl⟩
      rfl
    have fU2 : (deleteFileChunksEvents changes.to_remove).filter (·.isUpsert) = [] := by
      apply filter_eq_nil_of
      intro e he
      rcases List.mem_map.mp (by simpa [deleteFileChunksEvents] using he) with ⟨p, _, rfl⟩
      rfl
    rw [hevs]
    rw [List.filter_append, List.filter_append, List.filter_append, List.filter_append]
    rw [fD1, fD2, fU1, fU2]
    simp [snapshotCommitEvents, List.filter_cons, IndexEvent.isDelete, IndexEvent.isUpsert]
  · rw [hfilterMapB, flatten_filter_nonempty, batched_flatten]
  · intro b hb
    rw [hfilterMapB] at hb
    have hmem : b ∈ batchedGo ITER_BATCH_SIZE (getChunks changes.to_add chunksOf) [] :=
      (List.mem_filter.mp hb).1
    exact batchedGo_sizes ITER_BATCH_SIZE _ [] (by simp [ITER_BATCH_SIZE]) b hmem
  · rw [hevs, snapshotCommitEvents]
    exact getLast?_append_singleton _ _
  · rw [hevs, snapshotCommitEvents]
    intro e he
    rw [show (deleteFileChunksEvents changes.to_remove ++
        upsertEvents (getChunks changes.to_add chunksOf) ++
        [IndexEvent.snapshotWrite]).dropLast =
        deleteFileChunksEvents changes.to_remove ++
        upsertEvents (getChunks changes.to_add chunksOf) by simp] at he
    rcases List.mem_append.mp he with h1 | h1
    · rw [deleteFileChunksEvents] at h1
      rcases List.mem_map.mp h1 with ⟨p, _, rfl⟩
      simp
    · rw [upsertEvents] at h1
      rcases List.mem_map.mp h1 with ⟨b, _, rfl⟩
      simp

/-- C1 witness: the ordering theorem at a concrete change set with one
modified and one removed file. -/
theorem index_event_order_witness :
    (IndexingService.indexEvents ⟨["a.py"], [], ["b.py"]⟩ (fun _ => some [])).filterMap
        IndexEvent.deletedPath = DetectedChanges.to_remove ⟨["a.py"], [], ["b.py"]⟩ ∧
    (IndexingService.indexEvents ⟨["a.py"], [], ["b.py"]⟩ (fun _ => some [])).getLast? =
        some IndexEvent.snapshotWrite :=
  ⟨(index_event_order ⟨["a.py"], [], ["b.py"]⟩ (fun _ => some []) (by decide)).2.1,
   (index_event_order ⟨["a.py"], [], ["b.py"]⟩ (fun _ => some [])
       (by decide)).2.2.2.2.1⟩

/-! ## Snapshot repository (`core/sync/state/local.py`, `state/repository.py`)

`load` reads and JSON-decodes the snapshot file inside a try/except that
returns the empty map, but the version check and record decoding run outside
it. The file system and JSON parse outcome enter as `LoadInput`; a parsed
JSON document is the `Json` value. Python runtime errors that can escape
`load` are the `PyError` kinds. -/

inductive Json where
  | null
  | bool (b : Bool)
  | int (n : Int)
  | float (q : Rat)
  | str (s : String)
  | arr (elems : List Json)
  | obj (fields : List (String × Json))

inductive PyError where
  | attributeError
  | valueError
  | typeError
  | keyError
deriving DecidableEq

/-- Python `d.get(key, dflt)`: only a dict has `.get` (otherwise
`AttributeError`). -/
def Json.get (j : Json) (key : String) (dflt : Json) : Except PyError Json :=
  match j with
  | .obj fields => .ok (((fields.find? (fun e => e.1 == key)).map (·.2)).getD dflt)
  | _ => .error .attributeError

/-- Python `d[key]`: `KeyError` when absent, `TypeError` when `d` is not a
dict (string indexing aside, which the snapshot code never does). -/
def Json.item (j : Json) (key : String) : Except PyError Json :=
  match j with
  | .obj fields =>
    match (fields.find? (fun e => e.1 == key)).map (·.2) with
    | some v => .ok v
    | none => .error .keyError
  | _ => .error .typeError

/-- Digit-string value; `none` when empty or a non-digit appears. -/
def digitsVal (ds : List Char) : Option Nat :=
  if ds = [] then none
  else
    ds.foldl (fun acc c =>
      match acc with
      | none => none
      | some n => if c.isDigit then some (n * 10 + (c.toNat - 48)) else none)
      (some 0)

/-- Python `int(s)` for a string: strip, optional sign, decimal digits
(digit-group underscores are not modelled). -/
def pyIntOfString (s : String) : Except PyError Int :=
  let t := (pyStrip s).data
  match t with
  | '-' :: rest =>
    match digitsVal rest with
    | some n => .ok (-(n : Int))
    | none => .error .valueError
  | '+' :: rest =>
    match digitsVal rest with
    | some n => .ok (n : Int)
    | none => .error .valueError
  | _ =>
    match digitsVal t with
    | some n => .ok (n : Int)
    | none => .error .valueError

/-- Python `int(x)` on a JSON value: ints pass, bools become 0/1, floats
truncate toward zero, strings parse, everything else raises `TypeError`. -/
def pyIntOfJson : Json → Except PyError Int
  | .int n => .ok n
  | .bool b => .ok (if b then 1 else 0)
  | .float q => .ok (if q < 0 then ⌈q⌉ else ⌊q⌋)
  | .str s => pyIntOfString s
  | .null => .error .typeError
  | .arr _ => .error .typeError
  | .obj _ => .error .typeError

/-- Python `float(s)` for a string: strip, optional sign, `digits[.digits]`
(exponent notation is not modelled). -/
def pyFloatOfString (s : String) : Except PyError Rat :=
  let t := (pyStrip s).data
  let signed : Bool × List Char :=
    match t with
    | '-' :: rest => (true, rest)
    | '+' :: rest => (false, rest)
    | _ => (false, t)
  let value : Option Rat :=
    match splitCharList '.' signed.2 with
    | [ip] => (digitsVal ip).map (fun n => (n : Rat))
    | [ip, fp] =>
      if ip = [] ∧ fp = [] then none
      else
        match digitsVal (if ip = [] then ['0'] else ip),
              digitsVal (if fp = [] then ['0'] else fp) with
        | some n, some f => some ((n : Rat) + (f : Rat) / ((10 : Rat) ^ fp.length))
        | _, _ => none
    | _ => none
  match value with
  | some q => .ok (if signed.1 then -q else q)
  | none => .error .valueError

/-- Python `float(x)` on a JSON value. -/
def pyFloatOfJson : Json → Except PyError Rat
  | .int n => .ok (n : Rat)
  | .float q => .ok q
  | .bool b => .ok (if b then 1 else 0)
  | .str s => pyFloatOfString s
  | .null => .error .typeError
  | .arr _ => .error .typeError
  | .obj _ => .error .typeError

/-- Python `str(x)` on a JSON value. Scalars are rendered as CPython renders
them; for floats and containers (which never occur as a `hash` field in a
snapshot the system wrote) the embedding uses a fixed rendering in place of
CPython's repr, and no verified statement depends on those cases. -/
def jsonStr : Json → String
  | .str s => s
  | .int n => toString n
  | .bool b => if b then "True" else "False"
  | .null => "None"
  | .float q => toString q
  | .arr _ => "<list>"
  | .obj _ => "<dict>"

/-- The raw `d.get("inode")` value as the `FileRecord.inode` field: CPython
stores the value unchecked; snapshots the system writes hold an int or null,
to which the embedding restricts (other values are modelled as null). -/
def jsonInode : Json → Option Int
  | .int n => some n
  | _ => none

/-- Model of `FileRecord.from_dict`, in the source's evaluation order. -/
def FileRecord.from_dict (d : Json) : Except PyError FileRecord := do
  let vs ← d.item "size"
  let size ← pyIntOfJson vs
  let vm ← d.item "mtime"
  let mtime ← pyFloatOfJson vm
  let vi ← d.get "inode" Json.null
  let vh ← d.item "hash"
  return ⟨size, mtime, jsonInode vi, jsonStr vh⟩

/-- The dict comprehension over `files.items()`: first failing record
raises. -/
def decodeAll : List (String × Json) → Except PyError (List (String × FileRecord))
  | [] => .ok []
  | (p, rec) :: rest =>
    match FileRecord.from_dict rec with
    | .error e => .error e
    | .ok r =>
      match decodeAll rest with
      | .error e => .error e
      | .ok rs => .ok ((p, r) :: rs)

/-- What the filesystem and the JSON parser yielded for the snapshot file. -/
inductive LoadInput where
  | missing
  | readError
  | invalidJson
  | parsed (j : Json)

def SNAPSHOT_VERSION : Int := 1

/-- Model of `SnapshotFileStateRepository.load`: a missing file, a read
failure or invalid JSON yield the empty map (the try/except); the version
check and the record decoding run outside the try and their errors
propagate. -/
def SnapshotFileStateRepository.load (input : LoadInput) :
    Except PyError (List (String × FileRecord)) :=
  match input with
  | .missing => .ok []
  | .readError => .ok []
  | .invalidJson => .ok []
  | .parsed j =>
    match j.get "version" (Json.int 0) with
    | .error e => .error e
    | .ok vj =>
      match pyIntOfJson vj with
      | .error e => .error e
      | .ok v =>
        if v ≠ SNAPSHOT_VERSION then .ok []
        else
          match j.get "files" (Json.obj []) with
          | .error e => .error e
          | .ok fj =>
            match fj with
            | .obj fields => decodeAll fields
            | _ => .error .attributeError

/-- C10 counterexample: `load` raises on a snapshot file holding the valid
JSON document `[]` (no `.get` on a list), and on a version-1 object whose
record lacks the `size` key, instead of returning the empty map. -/
theorem snapshot_load_counterexample :
    SnapshotFileStateRepository.load (.parsed (Json.arr [])) =
      .error .attributeError ∧
    SnapshotFileStateRepository.load (.parsed (Json.obj [("version", Json.int 1),
      ("files", Json.obj [("a", Json.obj [])])])) = .error .keyError :=
  ⟨rfl, rfl⟩

/-- C10 amended: `load` returns the empty map when the snapshot file is
missing, unreadable or invalid JSON, and when the top-level object's version
differs from 1; for a version-1 object it returns the map decoded from the
`files` object, with decoding errors (and a non-object document) raising
rather than yielding the empty map. -/
theorem snapshot_load_amended (fields : List (String × Json)) (v : Int)
    (recs : List (String × Json))
    (hver : Json.get (Json.obj fields) "version" (Json.int 0) = .ok (Json.int v))
    (hfiles : Json.get (Json.obj fields) "files" (Json.obj []) = .ok (Json.obj recs)) :
    SnapshotFileStateRepository.load .missing = .ok [] ∧
    SnapshotFileStateRepository.load .readError = .ok [] ∧
    SnapshotFileStateRepository.load .invalidJson = .ok [] ∧
    (v ≠ 1 → SnapshotFileStateRepository.load (.parsed (.obj fields)) = .ok []) ∧
    (v = 1 → SnapshotFileStateRepository.load (.parsed (.obj fields)) = decodeAll recs) := by
  refine ⟨rfl, rfl, rfl, ?_, ?_⟩
  · intro hv
    rw [SnapshotFileStateRepository.load, hver]
    simp [pyIntOfJson, SNAPSHOT_VERSION, hv]
  · intro hv
    rw [SnapshotFileStateRepository.load, hver]
    simp only [pyIntOfJson, SNAPSHOT_VERSION, hv]
    rw [if_neg (by simp), hfiles]

/-- C10 witness: the amended theorem at a concrete version-1 snapshot with
one well-formed record. -/
theorem snapshot_load_amended_witness :
    SnapshotFileStateRepository.load (.parsed (Json.obj [("version", Json.int 1),
      ("files", Json.obj [("a", Json.obj [("size", Json.int 1),
        ("mtime", Json.float 2), ("inode", Json.null),
        ("hash", Json.str "h")])])])) =
      decodeAll [("a", Json.obj [("size", Json.int 1), ("mtime", Json.float 2),
        ("inode", Json.null), ("hash", Json.str "h")])] :=
  (snapshot_load_amended [("version", Json.int 1),
      ("files", Json.obj [("a", Json.obj [("size", Json.int 1),
        ("mtime", Json.float 2), ("inode", Json.null), ("hash", Json.str "h")])])]
      1
      [("a", Json.obj [("size", Json.int 1), ("mtime", Json.float 2),
        ("inode", Json.null), ("hash", Json.str "h")])]
      rfl rfl).2.2.2.2 rfl

example : decodeAll [("a", Json.obj [("size", Json.int 1), ("mtime", Json.float 2),
    ("inode", Json.null), ("hash", Json.str "h")])] =
    .ok [("a", ⟨1, 2, none, "h"⟩)] := rfl

end CodeContext
